import Mathlib

/-!
Verification of the pyramid ingestion/synchronization/segmentation core.

This file gives a shallow embedding, in Lean 4, of the parts of the
`pyramid` Python package relevant to the frozen claims: the buffered data
model (`NumericEventList`, `SignalChunk`, `Buffer`), the clock-sync
registry (`ReaderSyncRegistry`), the reader router (`ReaderRouter`), and
the trial machinery (`Trial`, `TrialDelimiter`, the enhancer loop of
`TrialExtractor.populate_trial`).

Modeling conventions:
 - Python floats are modeled as rationals (`ℚ`); float rounding is not
   modeled, so arithmetic identities hold exactly.
 - Python dicts (which preserve insertion order and update keys in place)
   are modeled as association lists with `lookupAssoc` / `setAssoc`.
 - Code that can raise an exception is modeled with `Option`: `none`
   means the Python code raises at that point, `some x` means it returns
   `x` normally.
 - Numpy 2-D arrays of events are modeled as lists of rows; a row is a
   timestamp plus a list of values.  Numpy requires rectangular arrays,
   so concatenation guards check that row widths agree.
 - A `Reader` is modeled as an infinite stream of read outcomes indexed
   by how many times `read_next` has been called; the router records its
   position in the stream.  `ReadOutcome.ok []` models a falsy result
   (Python `None` or an empty dict).
-/

namespace Pyramid

/-! ### Association-list helpers (Python dict semantics) -/

/-- Lookup in an insertion-ordered association list, like Python `dict.get`. -/
def lookupAssoc {β : Type} : List (String × β) → String → Option β
  | [], _ => none
  | (k, v) :: rest, key => if k = key then some v else lookupAssoc rest key

/-- Update a key in place if present, else append -- Python `dict[key] = value`. -/
def setAssoc {β : Type} : List (String × β) → String → β → List (String × β)
  | [], key, v => [(key, v)]
  | (k, w) :: rest, key, v =>
      if k = key then (k, v) :: rest else (k, w) :: setAssoc rest key v

/-- Python `abs` on a float, written out so that concrete rationals evaluate. -/
def ratAbs (q : ℚ) : ℚ :=
  if q < 0 then -q else q

/-- Python `min(xs, key=abs)`: first element of minimal absolute value;
`none` models the `ValueError` raised on an empty sequence. -/
def minByAbs : List ℚ → Option ℚ
  | [] => none
  | x :: rest => some (rest.foldl (fun m y => if ratAbs y < ratAbs m then y else m) x)

/-- Python `min(a, b, key=abs)`: `a` wins ties. -/
def minAbsPair (a b : ℚ) : ℚ :=
  if ratAbs b < ratAbs a then b else a

/-! ### NumericEventList (src/pyramid/model/events.py) -/

/-- One row of a `NumericEventList.event_data` array: `[timestamp, value...]`. -/
structure NumericEvent where
  time : ℚ
  values : List ℚ
deriving DecidableEq

/-- `NumericEventList`: wraps a 2-D array listing one event per row. -/
structure NumericEventList where
  eventData : List NumericEvent
deriving DecidableEq

namespace NumericEventList

/-- The row selector of `get_time_selector(start_time, end_time)`:
at-or-after `start_time` (when given) and strictly before `end_time` (when given). -/
def inTimeRange (startTime endTime : Option ℚ) (t : ℚ) : Bool :=
  (match startTime with
   | none => true
   | some s => decide (s ≤ t))
  && (match endTime with
      | none => true
      | some e => decide (t < e))

/-- `get_times_of(event_value, value_index, start_time, end_time)`:
times of events whose value at `value_index` equals `event_value`, within the
half-open time range.  A row too short for `value_index` cannot match
(numpy arrays are rectangular, so this arises only for malformed data). -/
def getTimesOf (l : NumericEventList) (eventValue : ℚ) (valueIndex : Nat)
    (startTime endTime : Option ℚ) : List ℚ :=
  ((l.eventData.filter fun e =>
      inTimeRange startTime endTime e.time
        && decide (e.values[valueIndex]? = some eventValue))).map
    NumericEvent.time

/-- `copy_time_range(start_time, end_time)`: rows within the half-open range. -/
def copyTimeRange (l : NumericEventList) (startTime endTime : Option ℚ) : NumericEventList :=
  ⟨l.eventData.filter fun e => inTimeRange startTime endTime e.time⟩

/-- `append(other)`: `np.concatenate` of the two row arrays; `none` models the
shape error numpy raises when row widths disagree. -/
def append (l other : NumericEventList) : Option NumericEventList :=
  if l.eventData.all fun a => other.eventData.all fun b => a.values.length = b.values.length
  then some ⟨l.eventData ++ other.eventData⟩
  else none

/-- `shift_times(shift)`: translate all timestamps. -/
def shiftTimes (l : NumericEventList) (shift : ℚ) : NumericEventList :=
  ⟨l.eventData.map fun e => { e with time := e.time + shift }⟩

/-- `get_end_time()`: max of the timestamp column, or `None` when empty. -/
def getEndTime (l : NumericEventList) : Option ℚ :=
  match l.eventData with
  | [] => none
  | e :: rest => some (rest.foldl (fun m x => max m x.time) e.time)

end NumericEventList

/-! ### SignalChunk (src/pyramid/model/signals.py) -/

/-- Numpy boolean-mask row selection `xs[mask]`. -/
def maskSelect {α : Type} : List α → List Bool → List α
  | [], _ => []
  | _ :: _, [] => []
  | x :: xs, b :: bs => if b then x :: maskSelect xs bs else maskSelect xs bs

/-- `SignalChunk`: a 2-D array of uniformly spaced samples (rows) by channels
(columns), with sample frequency, first-sample time and channel ids.
`sample_frequency` and `first_sample_time` are `None` in empty placeholder
chunks, hence `Option`. -/
structure SignalChunk where
  sampleData : List (List ℚ)
  sampleFrequency : Option ℚ
  firstSampleTime : Option ℚ
  channelIds : List (String ⊕ Int)
deriving DecidableEq

namespace SignalChunk

/-- `sample_count()`. -/
def sampleCount (c : SignalChunk) : Nat :=
  c.sampleData.length

/-- `get_times()`: `first_sample_time + i / sample_frequency` for row `i`.
`none` models the `TypeError` Python raises when either field is `None`.
(The model does not reproduce float `inf`/`nan` for `sample_frequency == 0`;
all claims concern chunks with a positive sample frequency.) -/
def getTimes (c : SignalChunk) : Option (List ℚ) :=
  match c.sampleFrequency, c.firstSampleTime with
  | some f, some t0 =>
    some ((List.range c.sampleData.length).map fun (i : Nat) => t0 + (i : ℚ) / f)
  | _, _ => none

/-- `copy_time_range(start_time, end_time)`, translated branch by branch.
In the zero-width branch (`end_time == start_time`, both given), Python finds
the first index where the tail selector holds and sets that position of an
all-`False` head selector; when there is no such index, `next(...)` yields
`None` and `head_selector[None]` raises `TypeError`, modeled by `none`. -/
def copyTimeRange (c : SignalChunk) (startTime endTime : Option ℚ) : Option SignalChunk :=
  match c.getTimes with
  | none => none
  | some sampleTimes =>
    let tailSelector : List Bool :=
      match startTime with
      | none => List.replicate c.sampleData.length true
      | some s => sampleTimes.map fun t => decide (s ≤ t)
    let headSelector? : Option (List Bool) :=
      match endTime with
      | none => some (List.replicate c.sampleData.length true)
      | some e =>
        match startTime with
        | some s =>
          if e = s then
            match tailSelector.findIdx? (fun b => b) with
            | none => none
            | some i => some ((List.replicate c.sampleData.length false).set i true)
          else some (sampleTimes.map fun t => decide (t < e))
        | none => some (sampleTimes.map fun t => decide (t < e))
    match headSelector? with
    | none => none
    | some headSelector =>
      let rowsInRange := List.zipWith (fun a b => a && b) tailSelector headSelector
      let rangeSampleData := maskSelect c.sampleData rowsInRange
      let rangeFirstSampleTime :=
        if 0 < (rangeSampleData.map List.length).sum
        then (maskSelect sampleTimes rowsInRange).head?
        else none
      some ⟨rangeSampleData, c.sampleFrequency, rangeFirstSampleTime, c.channelIds⟩

/-- `append(other)`: concatenate sample rows below the receiver's rows; a
`None` `sample_frequency`/`first_sample_time` is filled in from `other`.
`none` models the shape error `np.concatenate` raises when row widths
disagree. -/
def append (c other : SignalChunk) : Option SignalChunk :=
  if c.sampleData.all (fun ra => other.sampleData.all fun rb => ra.length == rb.length) then
    some
      { sampleData := c.sampleData ++ other.sampleData
        sampleFrequency :=
          match c.sampleFrequency with
          | none => other.sampleFrequency
          | some f => some f
        firstSampleTime :=
          match c.firstSampleTime with
          | none => other.firstSampleTime
          | some t => some t
        channelIds := c.channelIds }
  else none

/-- `shift_times(shift)`: shift `first_sample_time` when present. -/
def shiftTimes (c : SignalChunk) (shift : ℚ) : SignalChunk :=
  { c with firstSampleTime := c.firstSampleTime.map (· + shift) }

/-- `get_end_time()`: `first_sample_time + (sample_count - 1) / sample_frequency`
when there are samples, else `None`.  (A nonempty chunk whose frequency or
first time is `None` would raise in Python; modeled as `none`.) -/
def getEndTime (c : SignalChunk) : Option ℚ :=
  if 0 < c.sampleData.length then
    match c.sampleFrequency, c.firstSampleTime with
    | some f, some t0 => some (t0 + ((c.sampleData.length : ℚ) - 1) / f)
    | _, _ => none
  else none

end SignalChunk

/-! ### BufferData and Buffer (src/pyramid/model/model.py) -/

/-- The two `BufferData` variants that flow from readers into buffers. -/
inductive BufferData where
  | events (list : NumericEventList)
  | signal (chunk : SignalChunk)
deriving DecidableEq

namespace BufferData

/-- `append` dispatched by variant; appending mismatched variants raises in
Python (`AttributeError`/shape error), modeled as `none`. -/
def append : BufferData → BufferData → Option BufferData
  | .events a, .events b => (a.append b).map BufferData.events
  | .signal a, .signal b => (a.append b).map BufferData.signal
  | _, _ => none

/-- `get_end_time()` dispatched by variant. -/
def getEndTime : BufferData → Option ℚ
  | .events a => a.getEndTime
  | .signal c => c.getEndTime

end BufferData

/-- `Buffer`: one `BufferData` plus a clock-drift estimate. -/
structure Buffer where
  data : BufferData
  clockDrift : ℚ
deriving DecidableEq

namespace Buffer

/-- `raw_time_to_reference(t) = t - drift`. -/
def rawTimeToReference (b : Buffer) (rawTime : ℚ) : ℚ :=
  rawTime - b.clockDrift

/-- `reference_time_to_raw(t) = t + drift`, passing `None` through. -/
def referenceTimeToRaw (b : Buffer) (referenceTime : Option ℚ) : Option ℚ :=
  referenceTime.map (· + b.clockDrift)

end Buffer

/-! ### ReaderSyncRegistry (src/pyramid/neutral_zone/readers/readers.py) -/

/-- `ReaderSyncRegistry`: per-reader lists of sync event times plus the
name of the reference reader. -/
structure ReaderSyncRegistry where
  referenceReaderName : String
  eventTimes : List (String × List ℚ)
deriving DecidableEq

namespace ReaderSyncRegistry

/-- `record_event(reader_name, event_time)`: append to that reader's list. -/
def recordEvent (r : ReaderSyncRegistry) (readerName : String) (eventTime : ℚ) :
    ReaderSyncRegistry :=
  { r with
    eventTimes :=
      setAssoc r.eventTimes readerName
        (((lookupAssoc r.eventTimes readerName).getD []) ++ [eventTime]) }

/-- `get_drift(reader_name, reference_end_time, reader_end_time)`.

The translation follows the source line by line:
emptiness of each reader's list is checked *before* truncating it by the
optional end time; `none` models the uncaught Python errors that occur
when a truncation empties a list that was nonempty before it
(`reader_event_times[-1]` raises `IndexError`, and `min` of an empty
offsets list raises `ValueError`). -/
def getDrift (r : ReaderSyncRegistry) (readerName : String)
    (referenceEndTime readerEndTime : Option ℚ) : Option ℚ :=
  let referenceEventTimes0 := (lookupAssoc r.eventTimes r.referenceReaderName).getD []
  if referenceEventTimes0 = [] then some 0
  else
    let referenceEventTimes :=
      match referenceEndTime with
      | none => referenceEventTimes0
      | some e => referenceEventTimes0.filter fun u => u ≤ e
    let readerEventTimes0 := (lookupAssoc r.eventTimes readerName).getD []
    if readerEventTimes0 = [] then some 0
    else
      let readerEventTimes :=
        match readerEndTime with
        | none => readerEventTimes0
        | some e => readerEventTimes0.filter fun u => u ≤ e
      match readerEventTimes.getLast? with
      | none => none
      | some readerLast =>
        match minByAbs (referenceEventTimes.map fun refTime => readerLast - refTime) with
        | none => none
        | some driftFromReader =>
          match referenceEventTimes.getLast? with
          | none => none
          | some referenceLast =>
            match minByAbs (readerEventTimes.map fun readerTime => readerTime - referenceLast) with
            | none => none
            | some driftFromReference =>
              some (minAbsPair driftFromReader driftFromReference)

end ReaderSyncRegistry

/-! ### Reader and ReaderRouter (src/pyramid/neutral_zone/readers/readers.py) -/

/-- One outcome of a `read_next()` call: a result dict (`ok []` models a
falsy result -- Python `None` or an empty dict), `StopIteration` (orderly end
of data), or an unexpected exception. -/
inductive ReadOutcome where
  | ok (result : List (String × BufferData))
  | stopIteration
  | failure

/-- `ReaderRoute`: reader result name, destination buffer name, and the
transformers applied in order.  A transformer is a function returning the
transformed data or raising (`none`). -/
structure ReaderRoute where
  readerResultName : String
  bufferName : String
  transformers : List (BufferData → Option BufferData)

/-- `ReaderSyncConfig` (the fields the router reads). -/
structure ReaderSyncConfig where
  isReference : Bool := false
  readerResultName : String
  eventValue : ℚ
  eventValueIndex : Nat := 0
  readerName : String

/-- `ReaderRouter` plus the state its Python object mutates.  The reader is
an infinite stream of read outcomes indexed by call count; `readerPos`
counts the `read_next()` calls made so far, so "the reader is not called" is
visible as `readerPos` staying put.  `readerException` is the sticky
circuit-breaker flag (`self.reader_exception` truthiness). -/
structure ReaderRouter where
  reader : Nat → ReadOutcome
  routes : List ReaderRoute
  namedBuffers : List (String × Buffer)
  emptyReadsAllowed : Nat
  syncConfig : Option ReaderSyncConfig
  syncRegistry : Option ReaderSyncRegistry
  readerException : Bool
  readerPos : Nat
  maxBufferTime : ℚ
  clockDrift : ℚ

namespace ReaderRouter

/-- The sync-recording block of `route_next`: when sync is configured and the
result holds a `NumericEventList` under the configured name, record every
matching event time under the configured reader identity. -/
def recordSyncEvents (r : ReaderRouter) (readResult : List (String × BufferData)) :
    ReaderRouter :=
  match r.syncConfig, r.syncRegistry with
  | some config, some registry =>
    match lookupAssoc readResult config.readerResultName with
    | some (.events eventData) =>
      { r with
        syncRegistry := some ((eventData.getTimesOf config.eventValue
          config.eventValueIndex none none).foldl
            (fun reg eventTime => reg.recordEvent config.readerName eventTime) registry) }
    | _ => r
  | _, _ => r

/-- One route of `route_next`'s routing loop: missing buffer or missing
result name skips the route; a transformer or append exception (`none`)
skips just this route's data for this cycle. -/
def applyRoute (readResult : List (String × BufferData)) (buffers : List (String × Buffer))
    (route : ReaderRoute) : List (String × Buffer) :=
  match lookupAssoc buffers route.bufferName with
  | none => buffers
  | some buffer =>
    match lookupAssoc readResult route.readerResultName with
    | none => buffers
    | some data =>
      match route.transformers.foldl (fun acc transformer => acc.bind transformer)
          (some data) with
      | none => buffers
      | some transformed =>
        match buffer.data.append transformed with
        | none => buffers
        | some newData => setAssoc buffers route.bufferName { buffer with data := newData }

/-- The routing loop over all routes. -/
def applyRoutesStep (r : ReaderRouter) (readResult : List (String × BufferData)) :
    ReaderRouter :=
  { r with namedBuffers := r.routes.foldl (applyRoute readResult) r.namedBuffers }

/-- The high-water-mark update at the end of `route_next`.  Python's
`if buffer_end_time and buffer_end_time > self.max_buffer_time` skips falsy
end times, i.e. `None` and `0.0`. -/
def computeMaxBufferTime (buffers : List (String × Buffer)) (current : ℚ) : ℚ :=
  buffers.foldl
    (fun acc nb =>
      match nb.2.data.getEndTime with
      | none => acc
      | some endTime => if endTime ≠ 0 ∧ endTime > acc then endTime else acc)
    current

/-- The `max_buffer_time` update step. -/
def applyMaxUpdate (r : ReaderRouter) : ReaderRouter :=
  { r with maxBufferTime := computeMaxBufferTime r.namedBuffers r.maxBufferTime }

/-- `route_next()`: short-circuit when the breaker is latched; latch it on
`StopIteration` or any other exception; return false on a falsy result;
otherwise record sync events, deal data into buffers, update the high-water
mark, and return true. -/
def routeNext (r : ReaderRouter) : ReaderRouter × Bool :=
  if r.readerException then (r, false)
  else
    match r.reader r.readerPos with
    | .stopIteration =>
      ({ r with readerException := true, readerPos := r.readerPos + 1 }, false)
    | .failure =>
      ({ r with readerException := true, readerPos := r.readerPos + 1 }, false)
    | .ok readResult =>
      if readResult = [] then ({ r with readerPos := r.readerPos + 1 }, false)
      else
        (applyMaxUpdate (applyRoutesStep
          (recordSyncEvents { r with readerPos := r.readerPos + 1 } readResult) readResult),
          true)

/-- The `while` loop of `route_until`, with explicit fuel: `some` is returned
iff the loop exits within `fuel` iterations; `none` means the loop was still
running.  (The source's `while` has no fuel; termination claims are stated as
the existence of enough fuel.) -/
def routeUntilLoop : Nat → ℚ → ReaderRouter → Nat → Option ReaderRouter
  | 0, _, _, _ => none
  | fuel + 1, targetReaderTime, r, emptyReads =>
    if r.maxBufferTime < targetReaderTime ∧ emptyReads ≤ r.emptyReadsAllowed then
      match r.routeNext with
      | (r2, true) => routeUntilLoop fuel targetReaderTime r2 0
      | (r2, false) => routeUntilLoop fuel targetReaderTime r2 (emptyReads + 1)
    else some r

/-- `route_until(target_reference_time)`: convert the target to this reader's
raw clock once, loop, and return the raw `max_buffer_time` reached. -/
def routeUntil (fuel : Nat) (r : ReaderRouter) (targetReferenceTime : ℚ) : Option ℚ :=
  (routeUntilLoop fuel (targetReferenceTime + r.clockDrift) r 0).map maxBufferTime

/-- `update_drift_estimate(reference_end_time)`.  The outer `none` models an
uncaught error propagating out of `get_drift`; the inner `Option ℚ` is the
Python return value -- `none` is Python `None`, returned (with no state
change) when sync is not configured. -/
def updateDriftEstimate (r : ReaderRouter) (referenceEndTime : Option ℚ) :
    Option (ReaderRouter × Option ℚ) :=
  match r.syncConfig, r.syncRegistry with
  | some config, some registry =>
    let readerEndTime :=
      match referenceEndTime with
      | none => none
      | some t => some (t + r.clockDrift)
    match registry.getDrift config.readerName referenceEndTime readerEndTime with
    | none => none
    | some drift =>
      some
        ({ r with
            clockDrift := drift
            namedBuffers :=
              r.namedBuffers.map fun nb => (nb.1, { nb.2 with clockDrift := drift }) },
          some drift)
  | _, _ => some (r, none)

end ReaderRouter

/-! ### Trial (src/pyramid/trials/trials.py) -/

/-- `Trial`: time bounds, wrt time, per-buffer data slices, and enhancements.
`α` is the type of (non-BufferData) enhancement values; Python allows any
JSON-like value there.  Dicts are insertion-ordered association lists. -/
structure Trial (α : Type) where
  startTime : ℚ
  endTime : Option ℚ
  wrtTime : ℚ := 0
  numericEvents : List (String × NumericEventList) := []
  signals : List (String × SignalChunk) := []
  enhancements : List (String × α) := []
  enhancementCategories : List (String × List String) := []
deriving DecidableEq

namespace Trial

/-- `add_buffer_data(name, data)`: file the data under the matching dict.
(The `else` warning branch of the source is unreachable here because the
model's `BufferData` has exactly the two supported variants.) -/
def addBufferData {α : Type} (t : Trial α) (name : String) (data : BufferData) :
    Trial α × Bool :=
  match data with
  | .events l => ({ t with numericEvents := setAssoc t.numericEvents name l }, true)
  | .signal c => ({ t with signals := setAssoc t.signals name c }, true)

/-- `add_enhancement(name, data, category)`: `BufferData` values are diverted
to `add_buffer_data`; other values are stored in `enhancements[name]` and the
name is appended to the category's list unless already present *in that
category's list*. -/
def addEnhancement {α : Type} (t : Trial α) (name : String) (data : BufferData ⊕ α)
    (category : String) : Trial α × Bool :=
  match data with
  | .inl bufferData => t.addBufferData name bufferData
  | .inr value =>
    let categories0 :=
      if lookupAssoc t.enhancementCategories category = none
      then t.enhancementCategories ++ [(category, [])]
      else t.enhancementCategories
    let names := (lookupAssoc categories0 category).getD []
    let categories1 :=
      if name ∈ names then categories0 else setAssoc categories0 category (names ++ [name])
    ({ t with
        enhancementCategories := categories1
        enhancements := setAssoc t.enhancements name value }, true)

end Trial

/-- Fold a sequence of `add_enhancement(name, value, category)` calls (plain,
non-BufferData values) over a trial. -/
def addEnhancements {α : Type} (t : Trial α) (entries : List (String × α × String)) : Trial α :=
  entries.foldl (fun t e => (t.addEnhancement e.1 (Sum.inr e.2.1) e.2.2).1) t

/-- Spec companion for C9: the first-occurrence subsequence of a list of
names -- "insertion order, names unique". -/
def firstOccurrences : List String → List String
  | [] => []
  | x :: rest => x :: firstOccurrences (rest.filter fun y => y ≠ x)
termination_by l => l.length
decreasing_by
  exact Nat.lt_succ_of_le (List.length_filter_le _ _)

/-- Spec companion for C9: the names of the entries added under `category`,
in order. -/
def categoryNames (entries : List (String × α × String)) (category : String) : List String :=
  entries.filterMap fun e => if e.2.2 = category then some e.1 else none

/-- Spec companion for C9: the value of the last entry added under `name`. -/
def lastValueOf (entries : List (String × α × String)) (name : String) : Option α :=
  (entries.filterMap fun e => if e.1 = name then some e.2.1 else none).getLast?

/-! ### TrialDelimiter (src/pyramid/trials/trials.py) -/

/-- `TrialDelimiter`: watches the start buffer and emits trials at boundary
events.  (`trial_log_mod` only controls logging and is omitted.)  The start
buffer must hold a `NumericEventList` for `get_times_of` to exist; `next()`
on a signal buffer would raise `AttributeError`, modeled as `none`. -/
structure TrialDelimiter where
  startBuffer : Buffer
  startValue : ℚ
  startValueIndex : Nat
  startTime : ℚ
  trialCount : Nat
deriving DecidableEq

namespace TrialDelimiter

/-- `next()`: walk the matching start-event times in buffer order; each one
strictly beyond the running `start_time` emits a trial
`[previous start, event time)` (converted to the reference clock), advances
`start_time` and increments the counter. -/
def next (d : TrialDelimiter) : Option (TrialDelimiter × List (Nat × Trial Unit)) :=
  match d.startBuffer.data with
  | .signal _ => none
  | .events ev =>
    let nextStartTimes := ev.getTimesOf d.startValue d.startValueIndex none none
    some (nextStartTimes.foldl
      (fun (acc : TrialDelimiter × List (Nat × Trial Unit)) nextStartTime =>
        if nextStartTime > acc.1.startTime then
          ({ acc.1 with startTime := nextStartTime, trialCount := acc.1.trialCount + 1 },
            acc.2 ++ [(acc.1.trialCount,
              { startTime := acc.1.startBuffer.rawTimeToReference acc.1.startTime,
                endTime := some (acc.1.startBuffer.rawTimeToReference nextStartTime) })])
        else acc)
      (d, []))

/-- `last()`: one final open-ended trial `[start_time, None)`. -/
def last (d : TrialDelimiter) : TrialDelimiter × (Nat × Trial Unit) :=
  ({ d with trialCount := d.trialCount + 1 },
    (d.trialCount,
      { startTime := d.startBuffer.rawTimeToReference d.startTime, endTime := none }))

end TrialDelimiter

/-- Spec companion for C2: the claim's description of `next()` -- for each
qualifying start time, in the order given, emit `[previous start, this start)`
converted by the drift, numbering trials consecutively. -/
def delimitTrialsSpec (drift : ℚ) : ℚ → Nat → List ℚ → List (Nat × Trial Unit)
  | _, _, [] => []
  | s, n, u :: rest =>
    (n, { startTime := s - drift, endTime := some (u - drift) }) ::
      delimitTrialsSpec drift u (n + 1) rest

/-- Spec companion for C2 (amended), covering arbitrary buffers: walk the
matching times in buffer order with a running start time, emitting a trial
only for a time strictly beyond it; returns the final start time, the final
trial counter, and the emitted trials. -/
def delimitWalk (drift : ℚ) : ℚ → Nat → List ℚ → ℚ × Nat × List (Nat × Trial Unit)
  | s, n, [] => (s, n, [])
  | s, n, u :: rest =>
    if s < u then
      let result := delimitWalk drift u (n + 1) rest
      (result.1, result.2.1,
        (n, { startTime := s - drift, endTime := some (u - drift) }) :: result.2.2)
    else delimitWalk drift s n rest

/-! ### TrialExtractor (src/pyramid/trials/trials.py) -/

/-- Python `numpy.ndarray.min()` on the wrt-times array; `none` is the empty
case, which the source guards with `size > 0`. -/
def minimumOfList : List ℚ → Option ℚ
  | [] => none
  | x :: rest => some (rest.foldl min x)

/-- `gate` handling at the top of the enhancer loop: a missing
`when_expression` always runs; otherwise the evaluated expression's
truthiness decides.  (`TrialExpression.evaluate` catches its own errors and
returns the configured default, so the gate itself never raises.) -/
def gatePermits {α : Type} (whenExpression : Option (Trial α → Bool)) (trial : Trial α) :
    Bool :=
  match whenExpression with
  | none => true
  | some gate => gate trial

/-- The enhancer loop of `populate_trial` (the `for enhancer, when_expression
in self.enhancers.items()` loop): gate, then `try: enhancer.enhance(...)
except: log`.  Python passes the trial object itself to `enhance`, so
whatever `add_enhancement` mutations the enhancer performed before returning
*or before raising* stay on the trial; the bare `except` only logs.  An
enhancer is therefore modeled as returning the trial with its mutations
applied so far, paired with `true` when `enhance` returned normally and
`false` when it raised; the loop continues with the mutated trial either way
(the flag changes only the logging). -/
def runEnhancers {α : Type} :
    List ((Trial α → Trial α × Bool) × Option (Trial α → Bool)) → Trial α → Trial α
  | [], trial => trial
  | (enhancer, whenExpression) :: rest, trial =>
    if gatePermits whenExpression trial then runEnhancers rest (enhancer trial).1
    else runEnhancers rest trial

/-- More `BufferData` dispatch: `copy_time_range` (the signal variant can
raise on zero-width queries) and `shift_times`. -/
def BufferData.copyTimeRange : BufferData → Option ℚ → Option ℚ → Option BufferData
  | .events a, startTime, endTime => some (.events (a.copyTimeRange startTime endTime))
  | .signal c, startTime, endTime => (c.copyTimeRange startTime endTime).map BufferData.signal

/-- `shift_times` dispatch. -/
def BufferData.shiftTimes : BufferData → ℚ → BufferData
  | .events a, shift => .events (a.shiftTimes shift)
  | .signal c, shift => .signal (c.shiftTimes shift)

/-- `TrialExtractor`: the wrt buffer and marker, other named buffers, and the
ordered enhancer/gate pairs. -/
structure TrialExtractor (α : Type) where
  wrtBuffer : Buffer
  wrtValue : ℚ
  wrtValueIndex : Nat
  namedBuffers : List (String × Buffer)
  enhancers : List ((Trial α → Trial α × Bool) × Option (Trial α → Bool))

/-- `populate_trial`: set `wrt_time` from the earliest wrt marker in range
(0.0 when none), copy each named buffer's slice shifted by `-wrt_time` (an
uncaught `copy_time_range` error propagates, `none`), then run the enhancer
loop. -/
def TrialExtractor.populateTrial {α : Type} (x : TrialExtractor α) (trial : Trial α) :
    Option (Trial α) :=
  match x.wrtBuffer.data with
  | .signal _ => none
  | .events ev =>
    let trialWrtTimes := ev.getTimesOf x.wrtValue x.wrtValueIndex
        (x.wrtBuffer.referenceTimeToRaw (some trial.startTime))
        (x.wrtBuffer.referenceTimeToRaw trial.endTime)
    let newWrtTime :=
      match minimumOfList trialWrtTimes with
      | some rawWrtTime => x.wrtBuffer.rawTimeToReference rawWrtTime
      | none => 0
    let t1 := { trial with wrtTime := newWrtTime }
    let t2? := x.namedBuffers.foldl
      (fun acc nb =>
        match acc with
        | none => none
        | some t =>
          match nb.2.data.copyTimeRange (nb.2.referenceTimeToRaw (some t.startTime))
              (nb.2.referenceTimeToRaw t.endTime) with
          | none => none
          | some data =>
            some (t.addBufferData nb.1 (data.shiftTimes (-(t.wrtTime + nb.2.clockDrift)))).1)
      (some t1)
    match t2? with
    | none => none
    | some t2 => some (runEnhancers x.enhancers t2)

/-! ### Concrete fixtures used by witnesses and counterexamples -/

/-- The spec's drift example: reference events `[1.0, 2.0, 3.0]` for `"ref"`
and `[1.11, 2.12, 3.13]` for `"other"`, recorded in arrival order. -/
def exampleSyncRegistry : ReaderSyncRegistry :=
  (((((((ReaderSyncRegistry.mk "ref" []).recordEvent "ref" 1).recordEvent "ref" 2).recordEvent
        "ref" 3).recordEvent "other" 1.11).recordEvent "other" 2.12).recordEvent "other" 3.13)

/-- A registry where truncating to `reference_end_time = 1` empties the
reference list: both readers recorded a single sync event at time 5. -/
def lateSyncRegistry : ReaderSyncRegistry :=
  ⟨"ref", [("ref", [5]), ("other", [5])]⟩

/-- A one-sample, one-channel chunk (sample at time 0) for the zero-width
query past the end of the data. -/
def pastEndChunk : SignalChunk :=
  ⟨[[1]], some 1, some 0, [Sum.inl "a"]⟩

/-- A three-sample chunk at 1 Hz starting at time 0: sample times 0, 1, 2. -/
def threeSampleChunk : SignalChunk :=
  ⟨[[10], [20], [30]], some 1, some 0, [Sum.inl "a"]⟩

/-- A chunk with a different sample rate and start time, to append. -/
def otherRateChunk : SignalChunk :=
  ⟨[[40]], some 1000, some 999, [Sum.inl "a"]⟩

/-- A bare trial with no data and no enhancements. -/
def emptyTrial : Trial ℚ :=
  { startTime := 0, endTime := none }

/-- A bare `Trial Unit` for the enhancer-loop witness. -/
def trivialTrial : Trial Unit :=
  { startTime := 0, endTime := none }

/-- An enhancer that raises before mutating anything. -/
def faultyEnhancer : Trial Unit → Trial Unit × Bool :=
  fun t => (t, false)

/-- An enhancer that adds one enhancement and returns normally. -/
def taggingEnhancer : Trial Unit → Trial Unit × Bool :=
  fun t => ((t.addEnhancement "tag" (Sum.inr ()) "value").1, true)

/-- An enhancer that adds an enhancement and *then* raises: its in-place
mutation stays on the trial even though `enhance` raised. -/
def partialTaggingEnhancer : Trial Unit → Trial Unit × Bool :=
  fun t => ((t.addEnhancement "partial" (Sum.inr ()) "value").1, false)

/-- The trial obtained by adding the same name under two categories. -/
def dualCategoryTrial : Trial ℚ :=
  addEnhancements emptyTrial [("foo", 1, "value"), ("foo", 2, "id")]

/-- A sequence of `add_enhancement` calls with a repeated name. -/
def enhancementEntries : List (String × ℚ × String) :=
  [("foo", 1, "value"), ("bar", 2, "id"), ("foo", 3, "value")]

/-- One start event at raw time 1 with value 1010, drift 0, about to delimit. -/
def delimiterZero : TrialDelimiter :=
  ⟨⟨.events ⟨[⟨1, [1010]⟩]⟩, 0⟩, 1010, 0, 0, 0⟩

/-- The delimiter after the first trial, once the start buffer has received
the second start event. -/
def delimiterOne : TrialDelimiter :=
  ⟨⟨.events ⟨[⟨1, [1010]⟩, ⟨2, [1010]⟩]⟩, 0⟩, 1010, 0, 1, 1⟩

/-- The delimiter after the second trial, with the third start event. -/
def delimiterTwo : TrialDelimiter :=
  ⟨⟨.events ⟨[⟨1, [1010]⟩, ⟨2, [1010]⟩, ⟨3, [1010]⟩]⟩, 0⟩, 1010, 0, 2, 2⟩

/-- The delimiter after the third trial, when the start reader is exhausted. -/
def delimiterThree : TrialDelimiter :=
  ⟨⟨.events ⟨[⟨1, [1010]⟩, ⟨2, [1010]⟩, ⟨3, [1010]⟩]⟩, 0⟩, 1010, 0, 3, 3⟩

/-- A start buffer whose matching events are out of time order: 3, 1, 2. -/
def unorderedDelimiter : TrialDelimiter :=
  ⟨⟨.events ⟨[⟨3, [1010]⟩, ⟨1, [1010]⟩, ⟨2, [1010]⟩]⟩, 0⟩, 1010, 0, 0, 0⟩

/-- A router with no sync configuration. -/
def noSyncRouter : ReaderRouter :=
  { reader := fun _ => .stopIteration
    routes := [⟨"e", "b", []⟩]
    namedBuffers := [("b", ⟨.events ⟨[]⟩, 0⟩)]
    emptyReadsAllowed := 3
    syncConfig := none
    syncRegistry := none
    readerException := false
    readerPos := 0
    maxBufferTime := 0
    clockDrift := 0 }

/-- A router acting as reader `"other"` against `exampleSyncRegistry`. -/
def driftRouter : ReaderRouter :=
  { reader := fun _ => .stopIteration
    routes := [⟨"e", "b", []⟩]
    namedBuffers := [("b", ⟨.events ⟨[]⟩, 0⟩), ("c", ⟨.events ⟨[]⟩, 0⟩)]
    emptyReadsAllowed := 3
    syncConfig := some { readerResultName := "e", eventValue := 42, readerName := "other" }
    syncRegistry := some exampleSyncRegistry
    readerException := false
    readerPos := 0
    maxBufferTime := 0
    clockDrift := 0 }

/-- A router whose reader raises an unexpected error on its first read. -/
def failingReaderRouter : ReaderRouter :=
  { reader := fun _ => .failure
    routes := [⟨"e", "b", []⟩]
    namedBuffers := [("b", ⟨.events ⟨[⟨0.25, [7]⟩]⟩, 0⟩)]
    emptyReadsAllowed := 3
    syncConfig := none
    syncRegistry := none
    readerException := false
    readerPos := 0
    maxBufferTime := 0.25
    clockDrift := 0 }

/-- A router whose reader returns the same event (time 0.5) on every read,
forever: data keeps arriving but `max_buffer_time` never reaches the target. -/
def chattyReaderRouter : ReaderRouter :=
  { reader := fun _ => .ok [("e", .events ⟨[⟨0.5, [42]⟩]⟩)]
    routes := [⟨"e", "b", []⟩]
    namedBuffers := [("b", ⟨.events ⟨[]⟩, 0⟩)]
    emptyReadsAllowed := 3
    syncConfig := none
    syncRegistry := none
    readerException := false
    readerPos := 0
    maxBufferTime := 0
    clockDrift := 0 }

/-- The state of `chattyReaderRouter` after `k` successful reads. -/
def chattyState (k : Nat) : ReaderRouter :=
  { chattyReaderRouter with
      readerPos := k
      namedBuffers := [("b", ⟨.events ⟨List.replicate k ⟨0.5, [42]⟩⟩, 0⟩)]
      maxBufferTime := if k = 0 then 0 else 0.5 }

/-- A router whose reader is exhausted from the start. -/
def stoppingReaderRouter : ReaderRouter :=
  { reader := fun _ => .stopIteration
    routes := [⟨"e", "b", []⟩]
    namedBuffers := [("b", ⟨.events ⟨[⟨1, [5]⟩]⟩, 0⟩)]
    emptyReadsAllowed := 3
    syncConfig := none
    syncRegistry := none
    readerException := false
    readerPos := 0
    maxBufferTime := 1
    clockDrift := 0 }

end Pyramid

namespace Pyramid

/-! ### Helper lemmas -/

theorem ratAbs_eq_abs (q : ℚ) : ratAbs q = |q| := by
  unfold ratAbs
  by_cases h : q < 0
  · rw [if_pos h, abs_of_neg h]
  · rw [if_neg h, abs_of_nonneg (le_of_not_lt h)]

theorem minByAbs_foldl_le (rest : List ℚ) (a : ℚ) :
    (rest.foldl (fun m y => if |y| < |m| then y else m) a = a ∨
      rest.foldl (fun m y => if |y| < |m| then y else m) a ∈ rest) ∧
    |rest.foldl (fun m y => if |y| < |m| then y else m) a| ≤ |a| ∧
    ∀ x ∈ rest, |rest.foldl (fun m y => if |y| < |m| then y else m) a| ≤ |x| := by
  induction rest generalizing a with
  | nil => simp
  | cons y rest ih =>
    obtain ⟨hmem, hle, hall⟩ := ih (if |y| < |a| then y else a)
    have hle_a : |if |y| < |a| then y else a| ≤ |a| := by
      by_cases hy : |y| < |a|
      · rw [if_pos hy]; exact le_of_lt hy
      · rw [if_neg hy]
    have hle_y : |if |y| < |a| then y else a| ≤ |y| := by
      by_cases hy : |y| < |a|
      · rw [if_pos hy]
      · rw [if_neg hy]; exact le_of_not_lt hy
    simp only [List.foldl_cons]
    refine ⟨?_, le_trans hle hle_a, ?_⟩
    · rcases hmem with h | h
      · rw [h]
        by_cases hy : |y| < |a|
        · rw [if_pos hy]; exact Or.inr (List.mem_cons_self y rest)
        · rw [if_neg hy]; exact Or.inl rfl
      · exact Or.inr (List.mem_cons_of_mem y h)
    · intro x hx
      rcases List.mem_cons.mp hx with rfl | hx
      · exact le_trans hle hle_y
      · exact hall x hx

theorem minByAbs_spec (l : List ℚ) (m : ℚ) (h : minByAbs l = some m) :
    m ∈ l ∧ ∀ x ∈ l, |m| ≤ |x| := by
  cases l with
  | nil => simp [minByAbs] at h
  | cons a rest =>
    simp only [minByAbs, ratAbs_eq_abs, Option.some.injEq] at h
    obtain ⟨hmem, hle, hall⟩ := minByAbs_foldl_le rest a
    subst h
    constructor
    · rcases hmem with h | h
      · rw [h]; exact List.mem_cons_self a rest
      · exact List.mem_cons_of_mem a h
    · intro x hx
      rcases List.mem_cons.mp hx with rfl | hx
      · exact hle
      · exact hall x hx

theorem minAbsPair_spec (a b : ℚ) :
    (minAbsPair a b = a ∨ minAbsPair a b = b) ∧
    |minAbsPair a b| ≤ |a| ∧ |minAbsPair a b| ≤ |b| := by
  unfold minAbsPair
  simp only [ratAbs_eq_abs]
  by_cases h : |b| < |a|
  · rw [if_pos h]
    exact ⟨Or.inr rfl, le_of_lt h, le_refl _⟩
  · rw [if_neg h]
    exact ⟨Or.inl rfl, le_refl _, le_of_not_lt h⟩

theorem minByAbs_of_ne_nil (l : List ℚ) (h : l ≠ []) : ∃ m, minByAbs l = some m := by
  cases l with
  | nil => exact absurd rfl h
  | cons a rest => exact ⟨_, rfl⟩

/-! ### Claim C1 -/

/-- **C1.**  When both the reference reader and the target reader have
recorded sync events and no end-time bounds are given, `get_drift` returns a
value that is one of the candidate offsets (`reader_last - ref_time` over
reference event times, or `reader_time - reference_last` over target-reader
event times) and whose absolute value is least among all of them; this is
exactly "the smaller-in-absolute-value of `drift_from_reader` and
`drift_from_reference`".  In particular, on the spec's example registry
(`ref` = [1, 2, 3], `other` = [1.11, 2.12, 3.13]), `get_drift("other")`
equals 0.13.  (`reader_last`/`reference_last` are the last recorded entries,
which are the latest times since events are recorded in arrival order.) -/
theorem claim_C1_get_drift_nearest_offset
    (reg : ReaderSyncRegistry) (readerName : String)
    (refTimes readerTimes : List ℚ)
    (href : (lookupAssoc reg.eventTimes reg.referenceReaderName).getD [] = refTimes)
    (hrd : (lookupAssoc reg.eventTimes readerName).getD [] = readerTimes)
    (href0 : refTimes ≠ []) (hrd0 : readerTimes ≠ [])
    (readerLast referenceLast : ℚ)
    (hrl : readerTimes.getLast? = some readerLast)
    (hfl : refTimes.getLast? = some referenceLast) :
    (∃ d, reg.getDrift readerName none none = some d ∧
      (d ∈ refTimes.map (fun refTime => readerLast - refTime) ∨
        d ∈ readerTimes.map (fun readerTime => readerTime - referenceLast)) ∧
      (∀ x ∈ refTimes.map (fun refTime => readerLast - refTime), |d| ≤ |x|) ∧
      (∀ x ∈ readerTimes.map (fun readerTime => readerTime - referenceLast), |d| ≤ |x|)) ∧
    exampleSyncRegistry.getDrift "other" none none = some 0.13 := by
  constructor
  · have hrefmap : refTimes.map (fun refTime => readerLast - refTime) ≠ [] := by
      simpa using href0
    have hrdmap : readerTimes.map (fun readerTime => readerTime - referenceLast) ≠ [] := by
      simpa using hrd0
    obtain ⟨dfr, hdfr⟩ := minByAbs_of_ne_nil _ hrefmap
    obtain ⟨dfref, hdfref⟩ := minByAbs_of_ne_nil _ hrdmap
    refine ⟨minAbsPair dfr dfref, ?_, ?_, ?_, ?_⟩
    · simp only [ReaderSyncRegistry.getDrift, href, hrd]
      rw [if_neg href0, if_neg hrd0]
      simp only [hrl, hdfr, hfl, hdfref]
    · obtain ⟨hmem1, _⟩ := minByAbs_spec _ _ hdfr
      obtain ⟨hmem2, _⟩ := minByAbs_spec _ _ hdfref
      rcases (minAbsPair_spec dfr dfref).1 with h | h
      · exact Or.inl (by rw [h]; exact hmem1)
      · exact Or.inr (by rw [h]; exact hmem2)
    · intro x hx
      obtain ⟨_, hall⟩ := minByAbs_spec _ _ hdfr
      exact le_trans (minAbsPair_spec dfr dfref).2.1 (hall x hx)
    · intro x hx
      obtain ⟨_, hall⟩ := minByAbs_spec _ _ hdfref
      exact le_trans (minAbsPair_spec dfr dfref).2.2 (hall x hx)
  · simp [exampleSyncRegistry, ReaderSyncRegistry.recordEvent, ReaderSyncRegistry.getDrift,
      lookupAssoc, setAssoc, minByAbs, minAbsPair, ratAbs]
    norm_num

/-- Witness for C1: the general part applied to the example registry itself. -/
theorem claim_C1_witness :
    ∃ d, exampleSyncRegistry.getDrift "other" none none = some d ∧
      (d ∈ ([1, 2, 3] : List ℚ).map (fun refTime => 3.13 - refTime) ∨
        d ∈ ([1.11, 2.12, 3.13] : List ℚ).map (fun readerTime => readerTime - 3)) ∧
      (∀ x ∈ ([1, 2, 3] : List ℚ).map (fun refTime => 3.13 - refTime), |d| ≤ |x|) ∧
      (∀ x ∈ ([1.11, 2.12, 3.13] : List ℚ).map (fun readerTime => readerTime - 3),
        |d| ≤ |x|) :=
  (claim_C1_get_drift_nearest_offset exampleSyncRegistry "other"
    [1, 2, 3] [1.11, 2.12, 3.13]
    (by simp [exampleSyncRegistry, ReaderSyncRegistry.recordEvent, lookupAssoc, setAssoc])
    (by simp [exampleSyncRegistry, ReaderSyncRegistry.recordEvent, lookupAssoc, setAssoc])
    (by simp) (by simp)
    3.13 3
    (by simp) (by simp)).1

/-! ### Claim C3 -/

/-- **C3 (amended).**  `get_drift` returns 0.0 when either reader has zero
recorded sync events *before* the optional end-time truncation is applied;
but when a reader's nonempty list becomes empty after truncating to its end
time, `get_drift` raises an uncaught error (modeled as `none`) instead of
returning 0.0. -/
theorem claim_C3_get_drift_empty_behavior :
    (∀ (reg : ReaderSyncRegistry) (readerName : String)
      (referenceEndTime readerEndTime : Option ℚ),
      ((lookupAssoc reg.eventTimes reg.referenceReaderName).getD [] = [] ∨
        (lookupAssoc reg.eventTimes readerName).getD [] = []) →
      reg.getDrift readerName referenceEndTime readerEndTime = some 0) ∧
    (∀ (reg : ReaderSyncRegistry) (readerName : String)
      (referenceEndTime readerEndTime : Option ℚ),
      (lookupAssoc reg.eventTimes reg.referenceReaderName).getD [] ≠ [] →
      (lookupAssoc reg.eventTimes readerName).getD [] ≠ [] →
      ((match referenceEndTime with
        | none => (lookupAssoc reg.eventTimes reg.referenceReaderName).getD []
        | some e =>
          ((lookupAssoc reg.eventTimes reg.referenceReaderName).getD []).filter
            fun u => u ≤ e) = [] ∨
        (match readerEndTime with
        | none => (lookupAssoc reg.eventTimes readerName).getD []
        | some e => ((lookupAssoc reg.eventTimes readerName).getD []).filter fun u => u ≤ e)
          = []) →
      reg.getDrift readerName referenceEndTime readerEndTime = none) := by
  constructor
  · intro reg readerName referenceEndTime readerEndTime h
    unfold ReaderSyncRegistry.getDrift
    rcases h with h | h
    · simp [h]
    · rw [h]
      by_cases h0 : (lookupAssoc reg.eventTimes reg.referenceReaderName).getD [] = []
      · simp [h0]
      · simp [h0]
  · intro reg readerName referenceEndTime readerEndTime href0 hrd0 hempty
    unfold ReaderSyncRegistry.getDrift
    simp only [href0, if_neg, hrd0]
    rcases hempty with h | h
    · rcases hcase : (match readerEndTime with
        | none => (lookupAssoc reg.eventTimes readerName).getD []
        | some e =>
          ((lookupAssoc reg.eventTimes readerName).getD []).filter fun u => u ≤ e).getLast?
        with _ | readerLast
      · simp [href0, hrd0, hcase]
      · simp [href0, hrd0, hcase, h, minByAbs]
    · simp [href0, hrd0, h]

/-- Witness for C3 (amended): the `"ref"` list is present but empty of
recorded events in a fresh registry, so drift defaults to 0; and truncating
`lateSyncRegistry`'s reference list to end time 1 empties it, making
`get_drift` raise. -/
theorem claim_C3_witness :
    (ReaderSyncRegistry.mk "ref" []).getDrift "other" none none = some 0 ∧
    lateSyncRegistry.getDrift "other" (some 1) none = none := by
  constructor
  · exact claim_C3_get_drift_empty_behavior.1 (ReaderSyncRegistry.mk "ref" []) "other"
      none none (Or.inl (by decide))
  · exact claim_C3_get_drift_empty_behavior.2 lateSyncRegistry "other" (some 1) none
      (by decide) (by decide) (Or.inl (by decide))

/-- **C3 counterexample.**  In `lateSyncRegistry` both readers have recorded
events, but truncating the reference list to `reference_end_time = 1` leaves
zero qualifying events; the claim says `get_drift` then returns 0.0, yet the
code raises an uncaught `ValueError` (modeled as `none`). -/
theorem claim_C3_counterexample :
    (([5] : List ℚ).filter (fun u => u ≤ 1) = []) ∧
    lateSyncRegistry.getDrift "other" (some 1) none = none ∧
    lateSyncRegistry.getDrift "other" (some 1) none ≠ some 0 := by
  refine ⟨by decide, by decide, by decide⟩

/-! ### Mask-selection lemmas for the zero-width signal query -/

theorem zipWith_and_replicate_false (bs : List Bool) (n : Nat) (hn : n = bs.length) :
    List.zipWith (fun a b => a && b) bs (List.replicate n false) = List.replicate n false := by
  subst hn
  induction bs with
  | nil => rfl
  | cons b bs ih =>
    simp only [List.length_cons, List.replicate_succ, List.zipWith_cons_cons, Bool.and_false]
    rw [ih]

theorem zipWith_and_onehot (bs : List Bool) (j : Nat) (hj : j < bs.length)
    (hbj : bs[j] = true) (n : Nat) (hn : n = bs.length) :
    List.zipWith (fun a b => a && b) bs ((List.replicate n false).set j true) =
      (List.replicate n false).set j true := by
  subst hn
  induction bs generalizing j with
  | nil => exact absurd hj (Nat.not_lt_zero j)
  | cons b bs ih =>
    cases j with
    | zero =>
      simp only [List.length_cons, List.replicate_succ, List.set_cons_zero, List.zipWith_cons_cons]
      rw [List.getElem_cons_zero] at hbj
      rw [hbj]
      simp only [Bool.true_and]
      rw [zipWith_and_replicate_false bs bs.length rfl]
    | succ j =>
      simp only [List.length_cons, List.replicate_succ, List.set_cons_succ,
        List.zipWith_cons_cons, Bool.and_false]
      rw [List.getElem_cons_succ] at hbj
      rw [ih j (Nat.lt_of_succ_lt_succ hj) hbj]

theorem maskSelect_replicate_false (xs : List α) (n : Nat) :
    maskSelect xs (List.replicate n false) = [] := by
  induction xs generalizing n with
  | nil => rfl
  | cons x xs ih =>
    cases n with
    | zero => rfl
    | succ n => simpa [maskSelect, List.replicate_succ] using ih n

theorem maskSelect_onehot (xs : List α) (j : Nat) (hj : j < xs.length) (n : Nat)
    (hn : n = xs.length) :
    maskSelect xs ((List.replicate n false).set j true) = [xs[j]] := by
  subst hn
  induction xs generalizing j with
  | nil => exact absurd hj (Nat.not_lt_zero j)
  | cons x xs ih =>
    cases j with
    | zero =>
      simp only [List.length_cons, List.replicate_succ, List.set_cons_zero, maskSelect, if_pos]
      simp [maskSelect_replicate_false]
    | succ j =>
      simp only [List.length_cons, List.replicate_succ, List.set_cons_succ, maskSelect,
        List.getElem_cons_succ]
      rw [if_neg (by simp)]
      exact ih j (Nat.lt_of_succ_lt_succ hj)

/-! ### Claim C7 -/

/-- **C7 (amended).**  For a signal chunk with known sample frequency and
first-sample time, whose rows each have at least one channel, and which has
at least one sample at or after `t`, the zero-width query
`copy_time_range(t, t)` succeeds and returns a chunk holding exactly one row:
the first sample whose time is at or after `t`, with that sample's time as the
new `first_sample_time` (the source chunk is a value in this model, so it is
never modified).  Without a sample at or after `t` the call raises instead
(see the counterexample). -/
theorem claim_C7_zero_width_single_sample
    (c : SignalChunk) (t : ℚ) (times : List ℚ)
    (htimes : c.getTimes = some times)
    (hch : ∀ r ∈ c.sampleData, r ≠ [])
    (hhit : ∃ u ∈ times, t ≤ u) :
    ∃ (j : Nat) (hj : j < c.sampleData.length) (hjt : j < times.length),
      t ≤ times[j] ∧ (∀ k (hk : k < j), times.get ⟨k, by omega⟩ < t) ∧
      c.copyTimeRange (some t) (some t) =
        some ⟨[c.sampleData[j]], c.sampleFrequency, some times[j], c.channelIds⟩ := by
  have hlen : times.length = c.sampleData.length := by
    rcases hfq : c.sampleFrequency with _ | f <;> rcases hts : c.firstSampleTime with _ | t0 <;>
      simp only [SignalChunk.getTimes, hfq, hts] at htimes
    · exact Option.noConfusion htimes
    · exact Option.noConfusion htimes
    · exact Option.noConfusion htimes
    · rw [← Option.some.inj htimes, List.length_map, List.length_range]
  set tailSelector := times.map (fun u => decide (t ≤ u)) with htail
  have hmem : ∃ b ∈ tailSelector, (fun b => b) b = true := by
    obtain ⟨u, hu, htu⟩ := hhit
    exact ⟨true, by simpa [htail] using ⟨u, hu, htu⟩, rfl⟩
  obtain ⟨x, hx, hpx⟩ := hmem
  have hfind : tailSelector.findIdx? (fun b => b) = some (tailSelector.findIdx (fun b => b)) :=
    List.findIdx?_eq_some_of_exists ⟨x, hx, hpx⟩
  set j := tailSelector.findIdx (fun b => b) with hjdef
  obtain ⟨hjlen, hpj, hbefore⟩ := List.findIdx?_eq_some_iff_getElem.mp hfind
  have hjt : j < times.length := by simpa [htail] using hjlen
  have hj : j < c.sampleData.length := by omega
  have htj : t ≤ times[j] := by
    have := hpj
    simp only [htail, List.getElem_map] at this
    exact of_decide_eq_true this
  refine ⟨j, hj, hjt, htj, ?_, ?_⟩
  · intro k hk
    have hb := hbefore k hk
    simp only [htail, List.getElem_map, Bool.not_eq_true, decide_eq_false_iff_not] at hb
    rw [List.get_eq_getElem]
    exact lt_of_not_le hb
  · have honehot :
        List.zipWith (fun a b => a && b) tailSelector
            ((List.replicate c.sampleData.length false).set j true) =
          (List.replicate c.sampleData.length false).set j true := by
      refine zipWith_and_onehot tailSelector j hjlen hpj c.sampleData.length ?_
      simp [htail, hlen]
    unfold SignalChunk.copyTimeRange
    rw [htimes]
    simp only [← htail, hfind, ite_true, if_true]
    rw [honehot]
    rw [maskSelect_onehot c.sampleData j hj c.sampleData.length rfl,
      maskSelect_onehot times j hjt c.sampleData.length hlen.symm]
    have hrow : 0 < (([c.sampleData[j]]).map List.length).sum := by
      have hm : c.sampleData[j] ∈ c.sampleData := List.getElem_mem hj
      have hne := hch _ hm
      simp only [List.map_cons, List.map_nil, List.sum_cons, List.sum_nil, Nat.add_zero]
      exact List.length_pos.mpr hne
    rw [if_pos hrow]
    rfl

/-- Witness for C7 (amended): on `threeSampleChunk` (times 0, 1, 2) with
`t = 1.5`, the zero-width query returns exactly the sample at time 2. -/
theorem claim_C7_witness :
    ∃ (j : Nat) (hj : j < threeSampleChunk.sampleData.length)
      (hjt : j < ([0, 1, 2] : List ℚ).length),
      (1.5 : ℚ) ≤ ([0, 1, 2] : List ℚ)[j] ∧
      (∀ k (hk : k < j), ([0, 1, 2] : List ℚ).get ⟨k, by omega⟩ < 1.5) ∧
      threeSampleChunk.copyTimeRange (some 1.5) (some 1.5) =
        some ⟨[threeSampleChunk.sampleData[j]], threeSampleChunk.sampleFrequency,
          some (([0, 1, 2] : List ℚ)[j]), threeSampleChunk.channelIds⟩ :=
  claim_C7_zero_width_single_sample threeSampleChunk 1.5 [0, 1, 2]
    (by norm_num [threeSampleChunk, SignalChunk.getTimes, List.range_succ])
    (by simp [threeSampleChunk])
    (by norm_num)

/-- **C7 counterexample.**  On `pastEndChunk` (one sample at time 0) the
zero-width query at `t = 5` does not succeed: there is no sample at or after
`t`, so Python evaluates `head_selector[None]` and raises `TypeError`
(modeled as `none`), contradicting the claim that `copy_time_range(t, t)`
always succeeds and returns one sample. -/
theorem claim_C7_counterexample :
    pastEndChunk.copyTimeRange (some 5) (some 5) = none := by
  norm_num [pastEndChunk, SignalChunk.copyTimeRange, SignalChunk.getTimes, List.range_succ]

/-! ### Claim C10 -/

/-- **C10.**  When the receiving chunk's `sample_frequency` and
`first_sample_time` are set, `append(other)` concatenates `other`'s rows
below the receiver's and keeps the receiver's `sample_frequency`,
`first_sample_time` and `channel_ids`, discarding `other`'s entirely;
`get_times` afterwards assigns the time
`first_sample_time + i / sample_frequency` to every row index `i`, appended
rows included, so any gap, overlap or rate difference is silently re-timed as
if the data were contiguous.  (The row-width hypothesis is numpy's
rectangularity requirement for `np.concatenate`.) -/
theorem claim_C10_signal_append_retimes
    (c other : SignalChunk) (f t0 : ℚ)
    (hf : c.sampleFrequency = some f)
    (ht : c.firstSampleTime = some t0)
    (hw : c.sampleData.all (fun ra => other.sampleData.all fun rb => ra.length == rb.length)
      = true) :
    ∃ res, c.append other = some res ∧
      res.sampleData = c.sampleData ++ other.sampleData ∧
      res.sampleFrequency = some f ∧
      res.firstSampleTime = some t0 ∧
      res.channelIds = c.channelIds ∧
      res.getTimes =
        some ((List.range (c.sampleData.length + other.sampleData.length)).map
          fun (i : Nat) => t0 + (i : ℚ) / f) := by
  refine ⟨⟨c.sampleData ++ other.sampleData, some f, some t0, c.channelIds⟩,
    ?_, rfl, rfl, rfl, rfl, ?_⟩
  · unfold SignalChunk.append
    rw [if_pos (by simpa using hw)]
    simp [hf, ht]
  · simp [SignalChunk.getTimes, List.length_append]

/-- Witness for C10: appending a 1000 Hz chunk starting at time 999 to a
2 Hz chunk starting at time 5 re-times the appended sample to `5 + 2/2`. -/
theorem claim_C10_witness :
    ∃ res, threeSampleChunk.append otherRateChunk = some res ∧
      res.sampleData = threeSampleChunk.sampleData ++ otherRateChunk.sampleData ∧
      res.sampleFrequency = some 1 ∧
      res.firstSampleTime = some 0 ∧
      res.channelIds = threeSampleChunk.channelIds ∧
      res.getTimes =
        some ((List.range (threeSampleChunk.sampleData.length +
          otherRateChunk.sampleData.length)).map fun (i : Nat) => 0 + (i : ℚ) / 1) :=
  claim_C10_signal_append_retimes threeSampleChunk otherRateChunk 1 0
    (by simp [threeSampleChunk]) (by simp [threeSampleChunk])
    (by decide)

/-! ### Claim C8 -/

theorem runEnhancers_append {α : Type}
    (a b : List ((Trial α → Trial α × Bool) × Option (Trial α → Bool))) (t : Trial α) :
    runEnhancers (a ++ b) t = runEnhancers b (runEnhancers a t) := by
  induction a generalizing t with
  | nil => rfl
  | cons e a ih =>
    obtain ⟨enhancer, whenExpression⟩ := e
    simp only [List.cons_append, runEnhancers]
    by_cases hg : gatePermits whenExpression t = true
    · rw [if_pos hg, if_pos hg]
      exact ih _
    · rw [if_neg hg, if_neg hg]
      exact ih t

/-- **C8 (amended).**  An enhancer fault never aborts extraction: with its
gate permitting, the loop invokes the enhancer, keeps whatever trial state
the enhancer left behind -- whether it returned normally or raised, since
the bare `except` only logs -- and continues with every remaining enhancer
in order, always producing a trial.  In particular an enhancer that raises
*before mutating anything* contributes nothing: the run equals the run with
that enhancer removed.  The original claim's stronger reading -- a faulting
enhancer's contribution is always skipped -- is false, because in-place
mutations made before the raise are kept (see the counterexample). -/
theorem claim_C8_enhancer_fault_handling {α : Type}
    (pre rest : List ((Trial α → Trial α × Bool) × Option (Trial α → Bool)))
    (f : Trial α → Trial α × Bool) (g : Option (Trial α → Bool)) (t0 : Trial α)
    (hgate : gatePermits g (runEnhancers pre t0) = true) :
    runEnhancers (pre ++ (f, g) :: rest) t0 =
      runEnhancers rest (f (runEnhancers pre t0)).1 ∧
    (f (runEnhancers pre t0) = (runEnhancers pre t0, false) →
      runEnhancers (pre ++ (f, g) :: rest) t0 = runEnhancers (pre ++ rest) t0) := by
  have h1 : runEnhancers (pre ++ (f, g) :: rest) t0 =
      runEnhancers rest (f (runEnhancers pre t0)).1 := by
    rw [runEnhancers_append]
    simp only [runEnhancers]
    rw [if_pos hgate]
  refine ⟨h1, ?_⟩
  intro hnoop
  rw [h1, hnoop, runEnhancers_append]

/-- Witness for C8 (amended): the loop survives a faulty first enhancer and
still runs the second; since this fault mutated nothing, the run equals the
run with it removed. -/
theorem claim_C8_witness :
    runEnhancers [(faultyEnhancer, none), (taggingEnhancer, none)] trivialTrial =
      runEnhancers [(taggingEnhancer, none)] (faultyEnhancer (runEnhancers [] trivialTrial)).1
      ∧
    (faultyEnhancer (runEnhancers [] trivialTrial) = (runEnhancers [] trivialTrial, false) →
      runEnhancers [(faultyEnhancer, none), (taggingEnhancer, none)] trivialTrial =
        runEnhancers [(taggingEnhancer, none)] trivialTrial) :=
  claim_C8_enhancer_fault_handling [] [(taggingEnhancer, none)] faultyEnhancer none
    trivialTrial rfl

/-- **C8 counterexample.**  An enhancer that adds the enhancement
`"partial"` and then raises keeps that contribution on the trial the loop
produces: the result differs from the trial with the enhancer skipped, and
`enhancements["partial"]` is present -- refuting the claim's "that
enhancer's contribution is skipped". -/
theorem claim_C8_counterexample :
    runEnhancers [(partialTaggingEnhancer, none)] trivialTrial ≠ trivialTrial ∧
    lookupAssoc (runEnhancers [(partialTaggingEnhancer, none)] trivialTrial).enhancements
      "partial" = some () := by
  constructor
  · decide
  · decide

/-! ### Association-list and first-occurrence lemmas for C9 -/

theorem lookupAssoc_setAssoc {β : Type} (l : List (String × β)) (k k' : String) (v : β) :
    lookupAssoc (setAssoc l k v) k' = if k = k' then some v else lookupAssoc l k' := by
  induction l with
  | nil => rfl
  | cons p rest ih =>
    obtain ⟨a, w⟩ := p
    by_cases hak : a = k
    · subst hak
      simp only [setAssoc, if_pos rfl, lookupAssoc]
      by_cases hak' : a = k'
      · rw [if_pos hak', if_pos hak']
      · rw [if_neg hak', if_neg hak', if_neg hak']
    · simp only [setAssoc, if_neg hak, lookupAssoc]
      by_cases hak' : a = k'
      · have hk : ¬k = k' := fun h => hak (hak'.trans h.symm)
        rw [if_pos hak', if_neg hk, if_pos hak']
      · by_cases hkk' : k = k'
        · rw [if_neg hak', ih, if_pos hkk', if_pos hkk']
        · rw [if_neg hak', ih, if_neg hkk', if_neg hkk', if_neg hak']

theorem lookupAssoc_append_singleton {β : Type} (l : List (String × β)) (k k' : String)
    (v : β) :
    lookupAssoc (l ++ [(k, v)]) k' =
      match lookupAssoc l k' with
      | some w => some w
      | none => if k = k' then some v else none := by
  induction l with
  | nil => rfl
  | cons p rest ih =>
    obtain ⟨a, w⟩ := p
    simp only [List.cons_append, lookupAssoc]
    by_cases hak' : a = k'
    · rw [if_pos hak', if_pos hak']
    · rw [if_neg hak', if_neg hak']
      exact ih

theorem mem_firstOccurrences (l : List String) (x : String) :
    x ∈ firstOccurrences l ↔ x ∈ l := by
  induction l using firstOccurrences.induct with
  | case1 => rw [firstOccurrences]
  | case2 y rest ih =>
    rw [firstOccurrences]
    by_cases hxy : x = y
    · subst hxy
      simp
    · simp only [List.mem_cons, hxy, false_or]
      rw [ih]
      simp [List.mem_filter, hxy]

theorem firstOccurrences_concat (l : List String) (x : String) :
    firstOccurrences (l ++ [x]) =
      if x ∈ l then firstOccurrences l else firstOccurrences l ++ [x] := by
  induction l using firstOccurrences.induct with
  | case1 => simp [firstOccurrences]
  | case2 y rest ih =>
    rw [List.cons_append, firstOccurrences]
    by_cases hxy : x = y
    · subst hxy
      have hfe : (rest ++ [x]).filter (fun z => z ≠ x) = rest.filter (fun z => z ≠ x) := by
        simp [List.filter_append]
      rw [hfe, if_pos (List.mem_cons_self x rest), firstOccurrences]
    · have hfe : (rest ++ [x]).filter (fun z => z ≠ y) = rest.filter (fun z => z ≠ y) ++ [x] := by
        simp [List.filter_append, hxy]
      rw [hfe, ih]
      have hmem : (x ∈ rest.filter fun z => z ≠ y) ↔ x ∈ rest := by
        simp [List.mem_filter, hxy]
      by_cases hx : x ∈ rest
      · rw [if_pos (hmem.mpr hx), if_pos (List.mem_cons_of_mem y hx), firstOccurrences]
      · rw [if_neg (fun hc => hx (hmem.mp hc)), if_neg (by simp [hxy, hx]), firstOccurrences,
          List.cons_append]

theorem categoryNames_concat {α : Type} (es : List (String × α × String))
    (e : String × α × String) (c : String) :
    categoryNames (es ++ [e]) c =
      categoryNames es c ++ (if e.2.2 = c then [e.1] else []) := by
  unfold categoryNames
  rw [List.filterMap_append]
  by_cases h : e.2.2 = c
  · simp [h]
  · simp [h]

theorem lastValueOf_concat {α : Type} (es : List (String × α × String))
    (e : String × α × String) (n : String) :
    lastValueOf (es ++ [e]) n = if e.1 = n then some e.2.1 else lastValueOf es n := by
  unfold lastValueOf
  rw [List.filterMap_append]
  by_cases h : e.1 = n
  · simp [h, List.getLast?_concat]
  · simp [h]

theorem addEnhancement_lookup_cats {α : Type} (t : Trial α) (nm : String) (v : α)
    (c c' : String) :
    ((lookupAssoc ((t.addEnhancement nm (Sum.inr v) c).1.enhancementCategories) c').getD [])
      =
      if c = c' then
        (if nm ∈ (lookupAssoc t.enhancementCategories c).getD []
         then (lookupAssoc t.enhancementCategories c).getD []
         else (lookupAssoc t.enhancementCategories c).getD [] ++ [nm])
      else (lookupAssoc t.enhancementCategories c').getD [] := by
  have hA : lookupAssoc
      (if lookupAssoc t.enhancementCategories c = none
       then t.enhancementCategories ++ [(c, [])] else t.enhancementCategories) c =
      some ((lookupAssoc t.enhancementCategories c).getD []) := by
    rcases hL : lookupAssoc t.enhancementCategories c with _ | l
    · rw [if_pos rfl, lookupAssoc_append_singleton, hL, if_pos rfl]
      rfl
    · rw [if_neg (by simp [hL]), hL]
      rfl
  have hB : c ≠ c' → lookupAssoc
      (if lookupAssoc t.enhancementCategories c = none
       then t.enhancementCategories ++ [(c, [])] else t.enhancementCategories) c' =
      lookupAssoc t.enhancementCategories c' := by
    intro hne
    rcases hL : lookupAssoc t.enhancementCategories c with _ | l
    · rw [if_pos rfl, lookupAssoc_append_singleton, if_neg hne]
      rcases lookupAssoc t.enhancementCategories c' with _ | w <;> rfl
    · rw [if_neg (by simp [hL])]
  simp only [Trial.addEnhancement]
  rw [hA]
  simp only [Option.getD_some]
  by_cases hmem : nm ∈ (lookupAssoc t.enhancementCategories c).getD []
  · rw [if_pos hmem]
    by_cases hc : c = c'
    · subst hc
      rw [if_pos rfl, if_pos hmem, hA]
      rfl
    · rw [if_neg hc, hB hc]
  · rw [if_neg hmem]
    by_cases hc : c = c'
    · subst hc
      rw [if_pos rfl, if_neg hmem, lookupAssoc_setAssoc, if_pos rfl]
      rfl
    · rw [if_neg hc, lookupAssoc_setAssoc, if_neg hc, hB hc]

theorem addEnhancement_lookup_enh {α : Type} (t : Trial α) (nm : String) (v : α)
    (c n' : String) :
    lookupAssoc ((t.addEnhancement nm (Sum.inr v) c).1.enhancements) n' =
      if nm = n' then some v else lookupAssoc t.enhancements n' := by
  simp only [Trial.addEnhancement]
  exact lookupAssoc_setAssoc t.enhancements nm n' v

/-! ### Claim C9 -/

/-- **C9 (amended).**  Starting from a trial with no enhancements, after any
sequence of `add_enhancement(name, value, category)` calls with plain
(non-BufferData) values: each category's name list holds, in first-insertion
order and without duplicates, exactly the names added under *that category*,
and `enhancements[name]` is the most recently added value for that name.
Names are unique per category but not per trial: the same name added under
two categories appears in both lists (see the counterexample). -/
theorem claim_C9_enhancement_maps {α : Type}
    (t0 : Trial α) (h1 : t0.enhancements = []) (h2 : t0.enhancementCategories = [])
    (entries : List (String × α × String)) :
    (∀ category,
      ((lookupAssoc (addEnhancements t0 entries).enhancementCategories category).getD [])
        = firstOccurrences (categoryNames entries category)) ∧
    (∀ name,
      lookupAssoc (addEnhancements t0 entries).enhancements name = lastValueOf entries name)
    := by
  induction entries using List.reverseRecOn with
  | nil =>
    constructor
    · intro category
      simp [addEnhancements, h2, categoryNames, firstOccurrences, lookupAssoc]
    · intro name
      simp [addEnhancements, h1, lastValueOf, lookupAssoc]
  | append_singleton es e ih =>
    obtain ⟨hcat, henh⟩ := ih
    have hfold : addEnhancements t0 (es ++ [e]) =
        ((addEnhancements t0 es).addEnhancement e.1 (Sum.inr e.2.1) e.2.2).1 := by
      simp [addEnhancements, List.foldl_append]
    constructor
    · intro category
      rw [hfold, addEnhancement_lookup_cats, categoryNames_concat]
      by_cases hc : e.2.2 = category
      · subst hc
        rw [if_pos rfl, if_pos rfl, firstOccurrences_concat, hcat]
        simp only [mem_firstOccurrences]
      · rw [if_neg hc, if_neg hc, List.append_nil, hcat]
    · intro name
      rw [hfold, addEnhancement_lookup_enh, lastValueOf_concat, henh]

/-- Witness for C9 (amended): three adds with a repeated name `"foo"`; the
`"value"` category lists `["foo", ...]` once and `enhancements["foo"]` holds
the last value. -/
theorem claim_C9_witness :
    ((lookupAssoc (addEnhancements emptyTrial enhancementEntries).enhancementCategories
        "value").getD []) = firstOccurrences (categoryNames enhancementEntries "value") ∧
    lookupAssoc (addEnhancements emptyTrial enhancementEntries).enhancements "foo" =
      lastValueOf enhancementEntries "foo" :=
  ⟨(claim_C9_enhancement_maps emptyTrial rfl rfl enhancementEntries).1 "value",
    (claim_C9_enhancement_maps emptyTrial rfl rfl enhancementEntries).2 "foo"⟩

/-- **C9 counterexample.**  Adding `"foo"` under category `"value"` and then
again under category `"id"` leaves `"foo"` in *both* categories' name lists,
contradicting the claim that each enhancement name appears in at most one
category's list; the value mapping does hold the most recent data. -/
theorem claim_C9_counterexample :
    "foo" ∈ ((lookupAssoc dualCategoryTrial.enhancementCategories "value").getD []) ∧
    "foo" ∈ ((lookupAssoc dualCategoryTrial.enhancementCategories "id").getD []) ∧
    lookupAssoc dualCategoryTrial.enhancements "foo" = some 2 := by
  refine ⟨?_, ?_, ?_⟩ <;>
    simp [dualCategoryTrial, emptyTrial, addEnhancements, Trial.addEnhancement,
      lookupAssoc, setAssoc]

/-! ### Claim C2 -/

theorem delimiterNext_foldl (ts : List ℚ) (d : TrialDelimiter)
    (acc : List (Nat × Trial Unit)) (hsorted : ts.Pairwise (· < ·)) :
    ts.foldl
      (fun (acc : TrialDelimiter × List (Nat × Trial Unit)) nextStartTime =>
        if nextStartTime > acc.1.startTime then
          ({ acc.1 with startTime := nextStartTime, trialCount := acc.1.trialCount + 1 },
            acc.2 ++ [(acc.1.trialCount,
              { startTime := acc.1.startBuffer.rawTimeToReference acc.1.startTime,
                endTime := some (acc.1.startBuffer.rawTimeToReference nextStartTime) })])
        else acc)
      (d, acc)
      =
      ({ d with
          startTime := (ts.filter fun u => d.startTime < u).getLastD d.startTime,
          trialCount := d.trialCount + (ts.filter fun u => d.startTime < u).length },
        acc ++ delimitTrialsSpec d.startBuffer.clockDrift d.startTime d.trialCount
          (ts.filter fun u => d.startTime < u)) := by
  induction ts generalizing d acc with
  | nil => simp [delimitTrialsSpec]
  | cons u rest ih =>
    have hu : ∀ x ∈ rest, u < x := (List.pairwise_cons.mp hsorted).1
    have hrest : rest.Pairwise (· < ·) := (List.pairwise_cons.mp hsorted).2
    rw [List.foldl_cons]
    by_cases hgt : u > d.startTime
    · rw [if_pos hgt, ih _ _ hrest]
      have hfilter_rest_u : (rest.filter fun x => u < x) = rest :=
        List.filter_eq_self.mpr fun x hx => decide_eq_true (hu x hx)
      have hfilter_cons : ((u :: rest).filter fun x => d.startTime < x) = u :: rest :=
        List.filter_eq_self.mpr fun x hx => by
          rcases List.mem_cons.mp hx with rfl | hx
          · exact decide_eq_true hgt
          · exact decide_eq_true (lt_trans hgt (hu x hx))
      rw [hfilter_cons]
      simp only [hfilter_rest_u, List.getLastD_cons, List.length_cons, delimitTrialsSpec,
        Buffer.rawTimeToReference, Prod.mk.injEq]
      refine ⟨?_, ?_⟩
      · congr 1
        omega
      · rw [List.append_assoc, List.singleton_append]
    · rw [if_neg hgt, ih _ _ hrest]
      have hfilter_cons : ((u :: rest).filter fun x => d.startTime < x) =
          rest.filter fun x => d.startTime < x := by
        rw [List.filter_cons, if_neg (by simpa using hgt)]
      rw [hfilter_cons]

theorem delimiterNext_foldl_walk (ts : List ℚ) (d : TrialDelimiter)
    (acc : List (Nat × Trial Unit)) :
    ts.foldl
      (fun (acc : TrialDelimiter × List (Nat × Trial Unit)) nextStartTime =>
        if nextStartTime > acc.1.startTime then
          ({ acc.1 with startTime := nextStartTime, trialCount := acc.1.trialCount + 1 },
            acc.2 ++ [(acc.1.trialCount,
              { startTime := acc.1.startBuffer.rawTimeToReference acc.1.startTime,
                endTime := some (acc.1.startBuffer.rawTimeToReference nextStartTime) })])
        else acc)
      (d, acc)
      =
      ({ d with
          startTime := (delimitWalk d.startBuffer.clockDrift d.startTime d.trialCount ts).1,
          trialCount :=
            (delimitWalk d.startBuffer.clockDrift d.startTime d.trialCount ts).2.1 },
        acc ++ (delimitWalk d.startBuffer.clockDrift d.startTime d.trialCount ts).2.2) := by
  induction ts generalizing d acc with
  | nil => simp [delimitWalk]
  | cons u rest ih =>
    rw [List.foldl_cons]
    by_cases hgt : d.startTime < u
    · rw [if_pos hgt, ih]
      simp only [delimitWalk]
      rw [if_pos hgt]
      simp [Buffer.rawTimeToReference, List.append_assoc, List.singleton_append]
    · rw [if_neg hgt, ih]
      simp only [delimitWalk]
      rw [if_neg hgt]

/-- **C2 (amended).**  For *every* delimiter state whose start buffer holds
numeric events, `next()` equals a walk of the matching event times in buffer
order: each time strictly greater than the *running* `start_time` emits a
trial `[previous start, event time)` (converted to the reference clock),
advances `start_time` and increments the counter (`delimitWalk`).  When the
matching times are strictly ascending -- the normal case, and what the claim
implicitly assumes -- this emits exactly one trial per event with time
beyond the initial `start_time`, in ascending order, as the claim says; for
an out-of-order buffer the claim's reading fails (see the counterexample).
The concrete scenario of the claim (start events 1, 2, 3, value 1010, drift
0) produces trials {0: [0,1)}, {1: [1,2)}, {2: [2,3)} and `last()` yields
(3, [3, None)). -/
theorem claim_C2_delimiter_next :
    (∀ (d : TrialDelimiter) (ev : NumericEventList),
      d.startBuffer.data = .events ev →
      d.next = some
        ({ d with
            startTime := (delimitWalk d.startBuffer.clockDrift d.startTime d.trialCount
              (ev.getTimesOf d.startValue d.startValueIndex none none)).1,
            trialCount := (delimitWalk d.startBuffer.clockDrift d.startTime d.trialCount
              (ev.getTimesOf d.startValue d.startValueIndex none none)).2.1 },
          (delimitWalk d.startBuffer.clockDrift d.startTime d.trialCount
            (ev.getTimesOf d.startValue d.startValueIndex none none)).2.2)) ∧
    (∀ (d : TrialDelimiter) (ev : NumericEventList),
      d.startBuffer.data = .events ev →
      (ev.getTimesOf d.startValue d.startValueIndex none none).Pairwise (· < ·) →
      d.next = some
        ({ d with
            startTime := ((ev.getTimesOf d.startValue d.startValueIndex none none).filter
              fun u => d.startTime < u).getLastD d.startTime,
            trialCount := d.trialCount +
              ((ev.getTimesOf d.startValue d.startValueIndex none none).filter
                fun u => d.startTime < u).length },
          delimitTrialsSpec d.startBuffer.clockDrift d.startTime d.trialCount
            ((ev.getTimesOf d.startValue d.startValueIndex none none).filter
              fun u => d.startTime < u))) ∧
    delimiterZero.next = some
      (⟨⟨.events ⟨[⟨1, [1010]⟩]⟩, 0⟩, 1010, 0, 1, 1⟩,
        [(0, { startTime := 0, endTime := some 1 })]) ∧
    delimiterOne.next = some
      (⟨⟨.events ⟨[⟨1, [1010]⟩, ⟨2, [1010]⟩]⟩, 0⟩, 1010, 0, 2, 2⟩,
        [(1, { startTime := 1, endTime := some 2 })]) ∧
    delimiterTwo.next = some
      (⟨⟨.events ⟨[⟨1, [1010]⟩, ⟨2, [1010]⟩, ⟨3, [1010]⟩]⟩, 0⟩, 1010, 0, 3, 3⟩,
        [(2, { startTime := 2, endTime := some 3 })]) ∧
    delimiterThree.last = (⟨⟨.events ⟨[⟨1, [1010]⟩, ⟨2, [1010]⟩, ⟨3, [1010]⟩]⟩, 0⟩,
      1010, 0, 3, 4⟩, (3, { startTime := 3, endTime := none })) := by
  refine ⟨?_, ?_, ?_, ?_, ?_, ?_⟩
  · intro d ev hdata
    unfold TrialDelimiter.next
    simp only [hdata]
    rw [delimiterNext_foldl_walk, List.nil_append]
  · intro d ev hdata hsorted
    unfold TrialDelimiter.next
    simp only [hdata]
    rw [delimiterNext_foldl _ _ _ hsorted, List.nil_append]
  · norm_num [TrialDelimiter.next, delimiterZero, NumericEventList.getTimesOf,
      NumericEventList.inTimeRange, Buffer.rawTimeToReference]
  · norm_num [TrialDelimiter.next, delimiterOne, NumericEventList.getTimesOf,
      NumericEventList.inTimeRange, Buffer.rawTimeToReference]
  · norm_num [TrialDelimiter.next, delimiterTwo, NumericEventList.getTimesOf,
      NumericEventList.inTimeRange, Buffer.rawTimeToReference]
  · norm_num [TrialDelimiter.last, delimiterThree, Buffer.rawTimeToReference]

/-- Witness for C2 (amended): the buffer-order walk characterization applied
to `unorderedDelimiter` (times 3, 1, 2), and the sorted-case part applied to
`delimiterZero`, whose single matching start time is 1. -/
theorem claim_C2_witness :
    unorderedDelimiter.next = some
      ({ unorderedDelimiter with
          startTime := (delimitWalk unorderedDelimiter.startBuffer.clockDrift
            unorderedDelimiter.startTime unorderedDelimiter.trialCount
            ((⟨[⟨3, [1010]⟩, ⟨1, [1010]⟩, ⟨2, [1010]⟩]⟩ : NumericEventList).getTimesOf
              1010 0 none none)).1,
          trialCount := (delimitWalk unorderedDelimiter.startBuffer.clockDrift
            unorderedDelimiter.startTime unorderedDelimiter.trialCount
            ((⟨[⟨3, [1010]⟩, ⟨1, [1010]⟩, ⟨2, [1010]⟩]⟩ : NumericEventList).getTimesOf
              1010 0 none none)).2.1 },
        (delimitWalk unorderedDelimiter.startBuffer.clockDrift
          unorderedDelimiter.startTime unorderedDelimiter.trialCount
          ((⟨[⟨3, [1010]⟩, ⟨1, [1010]⟩, ⟨2, [1010]⟩]⟩ : NumericEventList).getTimesOf
            1010 0 none none)).2.2) ∧
    delimiterZero.next = some
      ({ delimiterZero with
          startTime := (((⟨[⟨1, [1010]⟩]⟩ : NumericEventList).getTimesOf 1010 0 none
            none).filter fun u => delimiterZero.startTime < u).getLastD
            delimiterZero.startTime,
          trialCount := delimiterZero.trialCount +
            (((⟨[⟨1, [1010]⟩]⟩ : NumericEventList).getTimesOf 1010 0 none none).filter
              fun u => delimiterZero.startTime < u).length },
        delimitTrialsSpec delimiterZero.startBuffer.clockDrift delimiterZero.startTime
          delimiterZero.trialCount
          (((⟨[⟨1, [1010]⟩]⟩ : NumericEventList).getTimesOf 1010 0 none none).filter
            fun u => delimiterZero.startTime < u)) :=
  ⟨claim_C2_delimiter_next.1 unorderedDelimiter ⟨[⟨3, [1010]⟩, ⟨1, [1010]⟩, ⟨2, [1010]⟩]⟩ rfl,
    claim_C2_delimiter_next.2.1 delimiterZero ⟨[⟨1, [1010]⟩]⟩ rfl
      (by simp [NumericEventList.getTimesOf, NumericEventList.inTimeRange, delimiterZero,
        List.pairwise_cons])⟩

/-- **C2 counterexample.**  With matching start events out of time order --
raw times 3, 1, 2 with value 1010, `start_time = 0` -- the claim predicts
three trials {0: [0,1)}, {1: [1,2)}, {2: [2,3)} ("for each such event, in
ascending time order"), but the code walks the buffer in array order and
emits only {0: [0,3)}: events 1 and 2 fail the `> start_time` check after
`start_time` has advanced to 3. -/
theorem claim_C2_counterexample :
    unorderedDelimiter.next = some
      (⟨⟨.events ⟨[⟨3, [1010]⟩, ⟨1, [1010]⟩, ⟨2, [1010]⟩]⟩, 0⟩, 1010, 0, 3, 1⟩,
        [(0, { startTime := 0, endTime := some 3 })]) ∧
    ¬ ∃ d' : TrialDelimiter, unorderedDelimiter.next = some
      (d', [(0, { startTime := 0, endTime := some 1 }),
        (1, { startTime := 1, endTime := some 2 }),
        (2, { startTime := 2, endTime := some 3 })]) := by
  have heval : unorderedDelimiter.next = some
      (⟨⟨.events ⟨[⟨3, [1010]⟩, ⟨1, [1010]⟩, ⟨2, [1010]⟩]⟩, 0⟩, 1010, 0, 3, 1⟩,
        [(0, { startTime := 0, endTime := some 3 })]) := by
    norm_num [TrialDelimiter.next, unorderedDelimiter, NumericEventList.getTimesOf,
      NumericEventList.inTimeRange, Buffer.rawTimeToReference]
  refine ⟨heval, ?_⟩
  rintro ⟨d', h⟩
  rw [heval] at h
  simp at h

/-! ### Claim C4 -/

/-- **C4 (amended).**  `update_drift_estimate(reference_end_time?)` with sync
configured queries the registry for this router's drift -- bounding the
reader-side events to `reference_end_time + clock_drift` when a bound is
given -- sets `clock_drift` of the router and of every owned buffer to the
resulting scalar, and returns it.  When `sync_config` or `sync_registry` is
`None` it returns Python `None` (not 0.0 as the claim says) and changes
nothing. -/
theorem claim_C4_update_drift_estimate :
    (∀ (r : ReaderRouter) (referenceEndTime : Option ℚ),
      r.syncConfig = none ∨ r.syncRegistry = none →
      r.updateDriftEstimate referenceEndTime = some (r, none)) ∧
    (∀ (r : ReaderRouter) (config : ReaderSyncConfig) (registry : ReaderSyncRegistry)
      (referenceEndTime : Option ℚ) (drift : ℚ),
      r.syncConfig = some config → r.syncRegistry = some registry →
      registry.getDrift config.readerName referenceEndTime
        (match referenceEndTime with
          | none => none
          | some t => some (t + r.clockDrift)) = some drift →
      r.updateDriftEstimate referenceEndTime =
        some ({ r with
            clockDrift := drift
            namedBuffers :=
              r.namedBuffers.map fun nb => (nb.1, { nb.2 with clockDrift := drift }) },
          some drift) ∧
      ∀ nb ∈ r.namedBuffers.map fun nb => (nb.1, { nb.2 with clockDrift := drift }),
        nb.2.clockDrift = drift) := by
  constructor
  · intro r referenceEndTime h
    unfold ReaderRouter.updateDriftEstimate
    rcases hc : r.syncConfig with _ | config
    · rfl
    · rcases hr : r.syncRegistry with _ | registry
      · rfl
      · rw [hc, hr] at h
        rcases h with h | h <;> exact Option.noConfusion h
  · intro r config registry referenceEndTime drift hc hr hd
    constructor
    · unfold ReaderRouter.updateDriftEstimate
      rw [hc, hr]
      simp only [hd]
    · intro nb hnb
      simp only [List.mem_map] at hnb
      obtain ⟨p, _, rfl⟩ := hnb
      rfl

/-- Witness for C4 (amended): `driftRouter` (reader identity `"other"`, the
example registry) gets drift 0.13 propagated to both buffers; `noSyncRouter`
returns `None`. -/
theorem claim_C4_witness :
    driftRouter.updateDriftEstimate none =
      some ({ driftRouter with
          clockDrift := 0.13
          namedBuffers :=
            driftRouter.namedBuffers.map fun nb => (nb.1, { nb.2 with clockDrift := 0.13 }) },
        some 0.13) ∧
    noSyncRouter.updateDriftEstimate none = some (noSyncRouter, none) :=
  ⟨(claim_C4_update_drift_estimate.2 driftRouter
      { readerResultName := "e", eventValue := 42, readerName := "other" }
      exampleSyncRegistry none 0.13 rfl rfl
      (by simp [exampleSyncRegistry, ReaderSyncRegistry.recordEvent,
          ReaderSyncRegistry.getDrift, lookupAssoc, setAssoc, minByAbs, minAbsPair, ratAbs]
          norm_num)).1,
    claim_C4_update_drift_estimate.1 noSyncRouter none (Or.inl rfl)⟩

/-- **C4 counterexample.**  With no sync configuration the claim says
`update_drift_estimate` returns 0.0, but the code returns `None`
(`return None` at the top of the method). -/
theorem claim_C4_counterexample :
    noSyncRouter.updateDriftEstimate none = some (noSyncRouter, none) ∧
    ¬ ∃ r2 : ReaderRouter, noSyncRouter.updateDriftEstimate none = some (r2, some 0) := by
  refine ⟨rfl, ?_⟩
  rintro ⟨r2, h⟩
  rw [show noSyncRouter.updateDriftEstimate none = some (noSyncRouter, none) from rfl] at h
  simp at h

/-! ### Claim C5 -/

theorem routeNext_of_exception (r : ReaderRouter) (h : r.readerException = true) :
    r.routeNext = (r, false) := by
  unfold ReaderRouter.routeNext
  rw [if_pos h]

/-- **C5.**  When the reader signals exhaustion (`StopIteration`) or raises
an unexpected fault, `route_next` latches the sticky `reader_exception` flag,
returns false, and leaves every buffer (and `max_buffer_time`) untouched;
from then on every subsequent `route_next` call returns false and leaves the
router's entire state -- including `readerPos`, which counts reader calls, so
the reader is not called again -- exactly as it was.  (`route_next` is a pure
function of this one router, so no other router's state can be affected.) -/
theorem claim_C5_circuit_breaker
    (r : ReaderRouter)
    (hexc : r.readerException = false)
    (houtcome : r.reader r.readerPos = .stopIteration ∨ r.reader r.readerPos = .failure) :
    r.routeNext = ({ r with readerException := true, readerPos := r.readerPos + 1 }, false) ∧
    (r.routeNext).1.namedBuffers = r.namedBuffers ∧
    (r.routeNext).1.maxBufferTime = r.maxBufferTime ∧
    (∀ n : Nat,
      (fun s : ReaderRouter => (s.routeNext).1)^[n] (r.routeNext).1 = (r.routeNext).1) ∧
    ((r.routeNext).1).routeNext = ((r.routeNext).1, false) := by
  have hstep :
      r.routeNext = ({ r with readerException := true, readerPos := r.readerPos + 1 }, false)
      := by
    unfold ReaderRouter.routeNext
    rw [if_neg (by simp [hexc])]
    rcases houtcome with h | h <;> rw [h]
  have hlatched : ((r.routeNext).1).readerException = true := by rw [hstep]
  have hfix : ((r.routeNext).1).routeNext = ((r.routeNext).1, false) :=
    routeNext_of_exception _ hlatched
  refine ⟨hstep, by rw [hstep], by rw [hstep], ?_, hfix⟩
  intro n
  induction n with
  | zero => rfl
  | succ n ih =>
    rw [Function.iterate_succ_apply', ih, hfix]

/-- Witness for C5: a reader that faults on its first read permanently
disables `failingReaderRouter` while its buffer contents survive unchanged. -/
theorem claim_C5_witness :
    failingReaderRouter.routeNext =
      ({ failingReaderRouter with
          readerException := true
          readerPos := failingReaderRouter.readerPos + 1 }, false) ∧
    (failingReaderRouter.routeNext).1.namedBuffers = failingReaderRouter.namedBuffers ∧
    (failingReaderRouter.routeNext).1.maxBufferTime = failingReaderRouter.maxBufferTime ∧
    (∀ n : Nat,
      (fun s : ReaderRouter => (s.routeNext).1)^[n] (failingReaderRouter.routeNext).1 =
        (failingReaderRouter.routeNext).1) ∧
    ((failingReaderRouter.routeNext).1).routeNext = ((failingReaderRouter.routeNext).1, false)
    :=
  claim_C5_circuit_breaker failingReaderRouter rfl (Or.inr rfl)

/-! ### Claim C6 -/

theorem routeUntilLoop_of_exception (t : ℚ) :
    ∀ (n e : Nat) (r : ReaderRouter), r.readerException = true → 1 ≤ n →
      r.emptyReadsAllowed + 2 - e ≤ n →
      ∃ x, ReaderRouter.routeUntilLoop n t r e = some x := by
  intro n
  induction n with
  | zero =>
    intro e r _ h1 _
    omega
  | succ n ih =>
    intro e r hex _ hbound
    unfold ReaderRouter.routeUntilLoop
    by_cases hc : r.maxBufferTime < t ∧ e ≤ r.emptyReadsAllowed
    · rw [if_pos hc, routeNext_of_exception r hex]
      exact ih (e + 1) r hex (by omega) (by omega)
    · rw [if_neg hc]
      exact ⟨r, rfl⟩

theorem recordSyncEvents_eq (r : ReaderRouter) (res : List (String × BufferData)) :
    ∃ reg, r.recordSyncEvents res = { r with syncRegistry := reg } := by
  unfold ReaderRouter.recordSyncEvents
  split
  · split
    · exact ⟨_, rfl⟩
    · exact ⟨r.syncRegistry, rfl⟩
  · exact ⟨r.syncRegistry, rfl⟩

theorem recordSyncEvents_reader (r : ReaderRouter) (res : List (String × BufferData)) :
    (r.recordSyncEvents res).reader = r.reader := by
  obtain ⟨reg, hreg⟩ := recordSyncEvents_eq r res
  rw [hreg]

theorem recordSyncEvents_allowed (r : ReaderRouter) (res : List (String × BufferData)) :
    (r.recordSyncEvents res).emptyReadsAllowed = r.emptyReadsAllowed := by
  obtain ⟨reg, hreg⟩ := recordSyncEvents_eq r res
  rw [hreg]

theorem recordSyncEvents_pos (r : ReaderRouter) (res : List (String × BufferData)) :
    (r.recordSyncEvents res).readerPos = r.readerPos := by
  obtain ⟨reg, hreg⟩ := recordSyncEvents_eq r res
  rw [hreg]

theorem routeNext_fields (r : ReaderRouter) (h : r.readerException = false) :
    (r.routeNext).1.reader = r.reader ∧
    (r.routeNext).1.emptyReadsAllowed = r.emptyReadsAllowed ∧
    (r.routeNext).1.readerPos = r.readerPos + 1 := by
  unfold ReaderRouter.routeNext
  rw [if_neg (by simp [h])]
  split
  · exact ⟨rfl, rfl, rfl⟩
  · exact ⟨rfl, rfl, rfl⟩
  · split
    · exact ⟨rfl, rfl, rfl⟩
    · simp only [ReaderRouter.applyMaxUpdate, ReaderRouter.applyRoutesStep]
      exact ⟨recordSyncEvents_reader _ _, recordSyncEvents_allowed _ _,
        recordSyncEvents_pos _ _⟩

theorem routeUntilLoop_of_eventually_stopped (t : ℚ) (N : Nat) :
    ∀ (m : Nat) (r : ReaderRouter) (e : Nat),
      N - r.readerPos ≤ m →
      (∀ k, N ≤ k → r.reader k = .stopIteration) →
      ∃ n x, ReaderRouter.routeUntilLoop n t r e = some x := by
  intro m
  induction m with
  | zero =>
    intro r e hm hreader
    by_cases hex : r.readerException = true
    · obtain ⟨x, hx⟩ :=
        routeUntilLoop_of_exception t (r.emptyReadsAllowed + 2) e r hex (by omega) (by omega)
      exact ⟨_, x, hx⟩
    · by_cases hc : r.maxBufferTime < t ∧ e ≤ r.emptyReadsAllowed
      · have hstop : r.reader r.readerPos = .stopIteration := hreader _ (by omega)
        have hstep : r.routeNext =
            ({ r with readerException := true, readerPos := r.readerPos + 1 }, false) := by
          unfold ReaderRouter.routeNext
          rw [if_neg hex, hstop]
        have heq : ({ r with readerException := true, readerPos := r.readerPos + 1 } :
            ReaderRouter).emptyReadsAllowed = r.emptyReadsAllowed := rfl
        obtain ⟨x, hx⟩ := routeUntilLoop_of_exception t (r.emptyReadsAllowed + 2) (e + 1)
          { r with readerException := true, readerPos := r.readerPos + 1 } rfl
          (by omega) (by rw [heq]; omega)
        refine ⟨r.emptyReadsAllowed + 2 + 1, x, ?_⟩
        unfold ReaderRouter.routeUntilLoop
        rw [if_pos hc, hstep]
        exact hx
      · exact ⟨1, r, by unfold ReaderRouter.routeUntilLoop; rw [if_neg hc]⟩
  | succ m ih =>
    intro r e hm hreader
    by_cases hex : r.readerException = true
    · obtain ⟨x, hx⟩ :=
        routeUntilLoop_of_exception t (r.emptyReadsAllowed + 2) e r hex (by omega) (by omega)
      exact ⟨_, x, hx⟩
    · by_cases hc : r.maxBufferTime < t ∧ e ≤ r.emptyReadsAllowed
      · rcases hr : r.routeNext with ⟨r2, got⟩
        have hfields := routeNext_fields r (by simpa using hex)
        rw [hr] at hfields
        obtain ⟨hreader2, hallowed2, hpos2⟩ := hfields
        have hreader2v : r2.reader = r.reader := hreader2
        have hpos2v : r2.readerPos = r.readerPos + 1 := hpos2
        obtain ⟨n, x, hx⟩ := ih r2 (if got then 0 else e + 1) (by omega)
          (by intro k hk; rw [hreader2v]; exact hreader k hk)
        refine ⟨n + 1, x, ?_⟩
        unfold ReaderRouter.routeUntilLoop
        rw [if_pos hc, hr]
        cases got
        · simpa using hx
        · simpa using hx
      · exact ⟨1, r, by unfold ReaderRouter.routeUntilLoop; rw [if_neg hc]⟩

/-- **C6 (amended).**  `route_until(target_reference_time)` terminates for
every reader that is eventually exhausted (from some call index on, every
`read_next` raises `StopIteration`; any behaviours before that point are
allowed): the loop exits within finitely many `route_next` calls -- as soon
as `max_buffer_time` reaches the target converted to the raw clock, or once
consecutive empty reads exceed `empty_reads_allowed` -- and the call returns
the raw `max_buffer_time` reached.  The claim's stronger "for any reader
behaviour" is false: a reader that keeps returning data while
`max_buffer_time` stays below the target loops forever (see the
counterexample). -/
theorem claim_C6_route_until_terminates
    (r : ReaderRouter) (targetReferenceTime : ℚ) (N : Nat)
    (hreader : ∀ k, N ≤ k → r.reader k = .stopIteration) :
    ∃ (fuel : Nat) (final : ReaderRouter),
      ReaderRouter.routeUntilLoop fuel (targetReferenceTime + r.clockDrift) r 0 = some final
        ∧
      ReaderRouter.routeUntil fuel r targetReferenceTime = some final.maxBufferTime := by
  obtain ⟨n, x, hx⟩ := routeUntilLoop_of_eventually_stopped (targetReferenceTime + r.clockDrift)
    N (N - r.readerPos) r 0 le_rfl hreader
  refine ⟨n, x, hx, ?_⟩
  unfold ReaderRouter.routeUntil
  rw [hx]
  rfl

/-- Witness for C6 (amended): a reader exhausted from the start terminates
`route_until(10)`. -/
theorem claim_C6_witness :
    ∃ (fuel : Nat) (final : ReaderRouter),
      ReaderRouter.routeUntilLoop fuel ((10 : ℚ) + stoppingReaderRouter.clockDrift)
        stoppingReaderRouter 0 = some final ∧
      ReaderRouter.routeUntil fuel stoppingReaderRouter 10 = some final.maxBufferTime :=
  claim_C6_route_until_terminates stoppingReaderRouter 10 0 (fun _ _ => rfl)

theorem getEndTime_chatty (k : Nat) :
    NumericEventList.getEndTime ⟨List.replicate (k + 1) ⟨0.5, [42]⟩⟩ = some 0.5 := by
  have hfold : ∀ j : Nat,
      List.foldl (fun m x => max m x.time) (0.5 : ℚ)
        (List.replicate j (⟨0.5, [42]⟩ : NumericEvent)) = 0.5 := by
    intro j
    induction j with
    | zero => rfl
    | succ j ih =>
      rw [List.replicate_succ, List.foldl_cons]
      simpa [max_self] using ih
  rw [List.replicate_succ]
  unfold NumericEventList.getEndTime
  exact congrArg some (hfold k)

theorem chattyStep (k : Nat) : (chattyState k).routeNext = (chattyState (k + 1), true) := by
  have happend : NumericEventList.append ⟨List.replicate k ⟨0.5, [42]⟩⟩ ⟨[⟨0.5, [42]⟩]⟩ =
      some ⟨List.replicate (k + 1) ⟨0.5, [42]⟩⟩ := by
    unfold NumericEventList.append
    rw [if_pos (by simp [List.all_eq_true, List.mem_replicate])]
    rw [← List.replicate_succ']
  have hend := getEndTime_chatty k
  unfold ReaderRouter.routeNext
  rw [if_neg (by simp [chattyState, chattyReaderRouter])]
  rcases k with _ | k
  all_goals norm_num at happend hend
  all_goals
    norm_num [chattyState, chattyReaderRouter, ReaderRouter.applyMaxUpdate,
      ReaderRouter.applyRoutesStep, ReaderRouter.recordSyncEvents, ReaderRouter.applyRoute,
      ReaderRouter.computeMaxBufferTime, lookupAssoc, setAssoc, BufferData.append,
      BufferData.getEndTime, happend, hend]

theorem chattyLoop (target : ℚ) (htarget : (0.5 : ℚ) < target) :
    ∀ n k : Nat, ReaderRouter.routeUntilLoop n target (chattyState k) 0 = none := by
  intro n
  induction n with
  | zero => intro k; rfl
  | succ n ih =>
    intro k
    have hcond : (chattyState k).maxBufferTime < target ∧
        0 ≤ (chattyState k).emptyReadsAllowed := by
      constructor
      · rcases k with _ | k
        · simpa [chattyState, chattyReaderRouter] using
            lt_trans (by norm_num : (0 : ℚ) < 0.5) htarget
        · simpa [chattyState, chattyReaderRouter] using htarget
      · simp
    unfold ReaderRouter.routeUntilLoop
    rw [if_pos hcond, chattyStep k]
    exact ih (k + 1)

/-- **C6 counterexample.**  `route_until(10)` on `chattyReaderRouter` -- whose
reader returns a data-bearing result on every call while the routed events
never push `max_buffer_time` past 0.5 -- never exits its loop: no amount of
fuel makes the `while` condition fail, refuting "it never loops forever, for
any reader behaviour". -/
theorem claim_C6_counterexample :
    ¬ ∃ (fuel : Nat) (result : ℚ),
      ReaderRouter.routeUntil fuel chattyReaderRouter 10 = some result := by
  rintro ⟨fuel, result, h⟩
  have h0 : chattyReaderRouter = chattyState 0 := by
    simp [chattyState, chattyReaderRouter]
  unfold ReaderRouter.routeUntil at h
  rw [h0] at h
  rw [chattyLoop (10 + (chattyState 0).clockDrift)
    (by norm_num [chattyState, chattyReaderRouter]) fuel 0] at h
  simp at h

end Pyramid
